import Mathlib

/-!
# HMC REST API test clients: session handshake and Atom feed decoding

A shallow embedding of the three Go programs of the repository
(`hmctest.go`, `hmc_lpar_list_test.go`, `hmc_ssp_add_lu.go`).

The outside world (HTTP transport, URL validation and parsing of
`http.NewRequest`, the cookie jar's matching policy, the XML tokenizer and
the numeric parsers of `strconv`) is a parameter `World`.  The programs themselves are functions
from a session and the trace of events so far to an outcome, the new session
and the new trace.

How the Go libraries are read:

* `xml.Unmarshal` works on the token tree of the body.  The struct
  declarations of the source decide what is decoded: a field takes the child
  elements whose local name is the name of its tag (or its own name when it
  has no tag) and whose name space is the one of its tag; a tag with a name
  and no name space takes the name space of the `XMLName` of its struct; a
  child no field takes is skipped; a slice field grows by one element for
  each child it takes, and drops that element again when decoding it fails;
  an error stops the decoding and leaves in place what was stored before.
* `http.NewRequest` parses the URL string: the request holds the parsed URL,
  not the string.  The parse is the world's; the path functions of `net/url`
  that decide how a parsed path is written on the request line (`escape`,
  `unescape`, `validEncoded`, `setPath`, `EscapedPath`, `RequestURI`) are
  defined here, in the mode `encodePath`.
* `s.client.Do` is one exchange (redirects happen inside it).  The jar's
  cookies for the URL go out with the request and the cookies of the response
  are stored in the jar.  Which cookies a jar gives for a URL is the world's;
  `defaultPath` and `pathMatch` of `net/http/cookiejar` are defined here.
* `log.Fatal` and `log.Fatalf` end the process: nothing runs after them, not
  even the deferred `Close`.  A method call on a nil `*http.Request` ends it
  in a panic.
* Printing and logging are recorded as calls, with their format and
  operands, not as formatted text.
-/

namespace Hmc

/-! ## XML token trees and the tag-directed decoding of `encoding/xml` -/

/-- Go error values, represented by their message. -/
abbrev Error := String

/-- A byte slice. -/
abbrev Bytes := List (Fin 256)

/-- The type `xml.Name`: a namespace URI and a local name. -/
structure Name where
  Space : String
  Local : String
deriving DecidableEq, Repr

/-- The token stream `Decoder.Token` produces, grouped by element.  A `fail`
node stands for the point where the tokenizer returns an error (a syntax
error, or an unexpected end of input): whatever follows it is never read. -/
inductive Node where
  | element (name : Name) (children : List Node)
  | charData (data : String)
  | misc
  | fail (err : Error)

mutual
/-- The first tokenizer error met while reading a node to its end. -/
def Node.firstFail : Node → Option Error
  | .element _ cs => Skip cs
  | .fail e => some e
  | .charData _ => none
  | .misc => none
/-- The call `d.Skip()`: reads the tokens up to the matching end element and
reports the tokenizer error that stops it, if any. -/
def Skip : List Node → Option Error
  | [] => none
  | n :: ns =>
    match n.firstFail with
    | some e => some e
    | none => Skip ns
end

/-- The token loop of `Decoder.unmarshal` for a value of a scalar kind: the
character data directly inside the element is accumulated, nested elements
are skipped. -/
def charData : List Node → Except Error String
  | [] => .ok ""
  | .charData t :: rest =>
    match charData rest with
    | .ok data => .ok (t ++ data)
    | .error e => .error e
  | .element _ cs :: rest =>
    match Skip cs with
    | some e => .error e
    | none => charData rest
  | .misc :: rest => charData rest
  | .fail e :: _ => .error e

/-- The token loop of `Decoder.unmarshal` for a struct value `sv`: each child
start element is offered to the fields (`unmarshalPath`, `none` when no field
takes it) and skipped when it is not consumed.  On an error the loop stops
and the value keeps what the earlier children stored in it. -/
def unmarshalFields {σ : Type}
    (unmarshalPath : Name → List Node → σ → Option (Except Error σ)) :
    List Node → σ → σ × Option Error
  | [], sv => (sv, none)
  | .element start cs :: rest, sv =>
    match unmarshalPath start cs sv with
    | some (.ok sv') => unmarshalFields unmarshalPath rest sv'
    | some (.error e) => (sv, some e)
    | none =>
      match Skip cs with
      | some e => (sv, some e)
      | none => unmarshalFields unmarshalPath rest sv
  | .charData _ :: rest, sv => unmarshalFields unmarshalPath rest sv
  | .misc :: rest, sv => unmarshalFields unmarshalPath rest sv
  | .fail e :: _, sv => (sv, some e)

/-- An element of a slice field is kept only when it decoded without error
(`v.SetLen(n)` otherwise). -/
def sliceElem {σ : Type} (r : σ × Option Error) : Except Error σ :=
  match r.2 with
  | some e => .error e
  | none => .ok r.1

/-- Does the start element match a field whose tag gives the name space
`xmlns` (empty: any) and the local name `name`. -/
def fieldMatches (xmlns name : String) (start : Name) : Bool :=
  (xmlns == "" || xmlns == start.Space) && name == start.Local

/-- The check of a struct's `XMLName` tag against the start element. -/
def checkXMLName (xmlns name : String) (start : Name) : Option Error :=
  if name != "" && name != start.Local then
    some ("expected element type <" ++ name ++ "> but have <" ++ start.Local ++ ">")
  else if xmlns != "" && xmlns != start.Space then
    some ("expected element <" ++ name ++ "> in name space " ++ xmlns ++ " but have " ++
      (if start.Space == "" then "no name space" else start.Space))
  else none

/-- A `float64`, by its bit pattern; the zero value is `+0.0`. -/
structure Float64 where
  bits : Nat
deriving DecidableEq, Repr

/-- The decoding of one element into a struct value `sv`: the `XMLName` tag
is checked, the field `XMLName` receives the element's name, then the
children are distributed over the fields. -/
def unmarshalStruct {σ : Type} (xmlns name : String) (setXMLName : Name → σ → σ)
    (unmarshalPath : Name → List Node → σ → Option (Except Error σ))
    (start : Name) (cs : List Node) (sv : σ) : σ × Option Error :=
  match checkXMLName xmlns name start with
  | some e => (sv, some e)
  | none => unmarshalFields unmarshalPath cs (setXMLName start sv)

/-- The decoding of one element into a field of kind string. -/
def unmarshalString {σ : Type} (cs : List Node) (set : String → σ) : Except Error σ :=
  match charData cs with
  | .error e => .error e
  | .ok data => .ok (set data)

/-- The decoding of one element into a field of a numeric kind, `parse`
being the conversion `copyValue` applies to the character data. -/
def unmarshalNumber {σ ν : Type} (parse : String → Except Error ν) (cs : List Node)
    (set : ν → σ) : Except Error σ :=
  match charData cs with
  | .error e => .error e
  | .ok data =>
    match parse data with
    | .error e => .error e
    | .ok v => .ok (set v)

/-- The decoding of one element into a new last element of a slice field. -/
def unmarshalSlice {σ τ : Type} (r : τ × Option Error) (append : τ → σ) : Except Error σ :=
  match sliceElem r with
  | .error e => .error e
  | .ok v => .ok (append v)

/-- The function `xml.Unmarshal(data, &v)` on the tokens of `data`: the first
start element is decoded into `v`; what comes before it is passed over and
what comes after it is not read. -/
def Unmarshal {σ : Type} (unmarshalRoot : Name → List Node → σ → σ × Option Error) :
    List Node → σ → σ × Option Error
  | [], v => (v, some "EOF")
  | .element start cs :: _, v => unmarshalRoot start cs v
  | .charData _ :: rest, v => Unmarshal unmarshalRoot rest v
  | .misc :: rest, v => Unmarshal unmarshalRoot rest v
  | .fail e :: _, v => (v, some e)

/-- The name space of the domain elements. -/
def uom : String := "http://www.ibm.com/xmlns/systems/power/firmware/uom/mc/2012_10/"

/-- The value of the `Accept` header of the fetch requests. -/
def acceptAny : String :=
  "text/html,application/xhtml+xml,application/xml;q=0.9,image/webp,*/*;q=0.8"

/-! ## HTTP requests, responses, the cookie jar and the observable trace -/

/-- The type `url.URL`, through the fields `url.Parse` fills in and the
request line is written from.  The characters of a string stand for its
bytes. -/
structure URL where
  Scheme : String
  Opaque : String
  Host : String
  Path : String
  RawPath : String
  ForceQuery : Bool
  RawQuery : String
deriving DecidableEq, Repr

/-- The function `ishex` of `net/url`. -/
def ishex (c : Char) : Bool :=
  ('0' ≤ c && c ≤ '9') || ('a' ≤ c && c ≤ 'f') || ('A' ≤ c && c ≤ 'F')

/-- The function `unhex` of `net/url`. -/
def unhex (c : Char) : Nat :=
  if '0' ≤ c && c ≤ '9' then c.toNat - 48
  else if 'a' ≤ c && c ≤ 'f' then c.toNat - 97 + 10
  else if 'A' ≤ c && c ≤ 'F' then c.toNat - 65 + 10
  else 0

/-- The digit of `upperhex` at the index `n`. -/
def upperhex (n : Nat) : Char :=
  ['0', '1', '2', '3', '4', '5', '6', '7', '8', '9', 'A', 'B', 'C', 'D', 'E', 'F'].getD n '0'

/-- The function `shouldEscape` of `net/url` in the mode `encodePath`:
letters, digits, the marks `-_.~` and the reserved characters other than `?`
stay, everything else is escaped. -/
def shouldEscape (c : Char) : Bool :=
  if ('a' ≤ c && c ≤ 'z') || ('A' ≤ c && c ≤ 'Z') || ('0' ≤ c && c ≤ '9') then false
  else if ['-', '_', '.', '~'].contains c then false
  else if ['$', '&', '+', ',', '/', ':', ';', '=', '?', '@'].contains c then c == '?'
  else true

/-- The function `escape` of `net/url` in the mode `encodePath`, on the
characters of the string. -/
def escapeChars : List Char → List Char
  | [] => []
  | c :: rest =>
    if shouldEscape c then
      '%' :: upperhex (c.toNat / 16 % 16) :: upperhex (c.toNat % 16) :: escapeChars rest
    else c :: escapeChars rest

/-- The function `escape` of `net/url` in the mode `encodePath`. -/
def escape (s : String) : String := String.mk (escapeChars s.data)

/-- The function `unescape` of `net/url` in the mode `encodePath`, on the
characters of the string: a `%` must be followed by two hexadecimal digits
and stands with them for one byte. -/
def unescapeChars : List Char → Except Error (List Char)
  | [] => .ok []
  | c :: rest =>
    if c = '%' then
      match rest with
      | a :: b :: rest' =>
        if ishex a && ishex b then
          match unescapeChars rest' with
          | .ok t => .ok (Char.ofNat (unhex a * 16 + unhex b) :: t)
          | .error e => .error e
        else .error "invalid URL escape"
      | _ => .error "invalid URL escape"
    else
      match unescapeChars rest with
      | .ok t => .ok (c :: t)
      | .error e => .error e

/-- The function `unescape` of `net/url` in the mode `encodePath`. -/
def unescape (s : String) : Except Error String :=
  match unescapeChars s.data with
  | .ok t => .ok (String.mk t)
  | .error e => .error e

/-- The function `validEncoded` of `net/url` in the mode `encodePath`. -/
def validEncoded (s : String) : Bool :=
  s.data.all fun c =>
    ['!', '$', '&', '\'', '(', ')', '*', '+', ',', ';', '=', ':', '@', '[', ']', '%'].contains c ||
      !shouldEscape c

/-- The method `URL.setPath`: the fields `Path` and `RawPath` for the path
`p` of a URL string.  `RawPath` is kept only when `p` is not the default
encoding of `Path`. -/
def setPath (p : String) : Except Error (String × String) :=
  match unescape p with
  | .error e => .error e
  | .ok path => if p == escape path then .ok (path, "") else .ok (path, p)

/-- The method `URL.EscapedPath`: `RawPath` when it is a valid encoding of
`Path`, the default encoding of `Path` otherwise. -/
def URL.EscapedPath (u : URL) : String :=
  if u.RawPath != "" && validEncoded u.RawPath &&
      (match unescape u.RawPath with
        | .ok p => p == u.Path
        | .error _ => false) then u.RawPath
  else if u.Path == "*" then "*"
  else escape u.Path

/-- The method `URL.RequestURI`: the request target the transport writes on
the request line. -/
def URL.RequestURI (u : URL) : String :=
  let result :=
    if u.Opaque == "" then
      (if u.EscapedPath == "" then "/" else u.EscapedPath)
    else if u.Opaque.data.take 2 == ['/', '/'] then u.Scheme ++ ":" ++ u.Opaque
    else u.Opaque
  if u.ForceQuery || u.RawQuery != "" then result ++ "?" ++ u.RawQuery else result

/-- The type `http.Cookie`, through its name, value and `Path` attribute
(empty when the `Set-Cookie` line gives none, and in the cookies of a
request). -/
structure Cookie where
  Name : String
  Value : String
  Path : String
deriving DecidableEq, Repr

/-- The function `defaultPath` of `net/http/cookiejar`: the path a cookie
without `Path` attribute gets from the path of the URL that set it. -/
def defaultPath (path : String) : String :=
  if path.data.head? != some '/' then "/"
  else
    match (path.data.reverse.dropWhile fun c => c != '/').drop 1 with
    | [] => "/"
    | r => String.mk r.reverse

/-- Does the text `t` begin with the text `p` (`strings.HasPrefix`). -/
def beginsWith : List Char → List Char → Bool
  | _, [] => true
  | [], _ :: _ => false
  | a :: t, b :: p => a == b && beginsWith t p

/-- The method `pathMatch` of a jar entry with the path `cookiePath`. -/
def pathMatch (requestPath cookiePath : String) : Bool :=
  if requestPath == cookiePath then true
  else if beginsWith requestPath.data cookiePath.data then
    if cookiePath.data.getLast? == some '/' then true
    else (requestPath.data.drop cookiePath.data.length).head? == some '/'
  else false

/-- The header of a request built by the programs: one value for each key. -/
abbrev Header := List (String × String)

/-- The call `Header.Set`: replaces the value stored for `key`, or adds the
key after the others. -/
def Header.Set : Header → String → String → Header
  | [], key, value => [(key, value)]
  | (k, v) :: rest, key, value =>
    if k == key then (key, value) :: rest else (k, v) :: Header.Set rest key value

/-- The type `http.Request`, through the fields `http.NewRequest` and the
programs fill in. -/
structure Request where
  Method : String
  URL : URL
  Header : Header
  Body : Option String
deriving DecidableEq, Repr

/-- The statement `request.Header.Set(key, value)`. -/
def Request.setHeader (request : Request) (key value : String) : Request :=
  { request with Header := Header.Set request.Header key value }

/-- The type `http.Response`.  `Header` lists the header in the order in
which a `range` over it runs; `Cookies` are the cookies of its `Set-Cookie`
lines; `Body` are the bytes of the body and `BodyErr` the error that reading
the body to its end runs into, if any. -/
structure Response where
  StatusCode : Int
  Header : List (String × List String)
  Cookies : List Cookie
  Body : Bytes
  BodyErr : Option Error

/-- The state of a `cookiejar.Jar`: the calls to `SetCookies` it has received,
oldest first.  A jar made by `cookiejar.New` is empty. -/
abbrev Jar := List (URL × List Cookie)

/-- An operand of a print or log call. -/
inductive Arg where
  | str (s : String)
  | int (i : Int)
  | float (f : Float64)
  | err (e : Error)
  | strs (l : List String)
deriving DecidableEq, Repr

/-- What a run does that can be observed from outside, in order. -/
inductive Event where
  /-- The call `http.NewRequest(method, url, body)`. -/
  | newRequest (method url : String) (body : Option String)
  /-- The call `s.client.Do(request)`: the request goes out with the cookies
  the jar holds for its URL. -/
  | send (request : Request) (cookies : List Cookie)
  /-- The call `ioutil.ReadAll(response.Body)`. -/
  | readAll
  /-- The deferred `response.Body.Close()`. -/
  | close
  /-- The call `fmt.Printf(format, args...)`. -/
  | printf (format : String) (args : List Arg)
  /-- The call `fmt.Println(args...)`. -/
  | println (args : List Arg)
deriving DecidableEq, Repr

/-- Everything outside the programs. -/
structure World where
  /-- The error of `http.NewRequest(method, url, _)`, `none` when the method
  and the URL are accepted. -/
  newRequestErr : String → String → Option Error
  /-- The URL `url.Parse` makes of a string that `http.NewRequest` accepts. -/
  parseURL : String → URL
  /-- What the transport answers to a request sent with the given cookies,
  after the given trace: a response, or a transport error. -/
  roundTrip : List Event → Request → List Cookie → Except Error Response
  /-- The method `Jar.Cookies`: the cookies a jar sends to a URL. -/
  jarCookies : Jar → URL → List Cookie
  /-- The tokenizer of `encoding/xml` on a byte slice. -/
  tokens : Bytes → List Node
  /-- The conversion of character data to an `int` (`copyValue`). -/
  parseInt : String → Except Error Int
  /-- The conversion of character data to a `float64` (`copyValue`). -/
  parseFloat : String → Except Error Float64

/-- The type `http.Client`, with the transport's `InsecureSkipVerify`. -/
structure Client where
  InsecureSkipVerify : Bool
  Jar : Jar
deriving DecidableEq, Repr

/-- The struct `Session` (the same in the three files). -/
structure Session where
  client : Client
  User : String
  Password : String
  url : String
deriving DecidableEq, Repr

/-- How a run of an operation ends. -/
inductive Outcome (α : Type) where
  /-- The function returns. -/
  | returned (a : α)
  /-- The call `log.Fatal(args...)`: the message is logged and the process
  exits with status 1. -/
  | fatal (args : List Arg)
  /-- The call `log.Fatalf(format, args...)`, likewise. -/
  | fatalf (format : String) (args : List Arg)
  /-- A run-time panic stops the process. -/
  | panic (msg : String)
deriving DecidableEq, Repr

/-- The result of running an operation: how it ends, the session and the
trace at that point. -/
structure Run (α : Type) where
  outcome : Outcome α
  session : Session
  trace : List Event

/-- Sequencing: the second operation runs only when the first returns. -/
def Run.andThen {α β : Type} (r : Run α) (f : α → Session → List Event → Run β) : Run β :=
  match r.outcome with
  | .returned a => f a r.session r.trace
  | .fatal args => ⟨.fatal args, r.session, r.trace⟩
  | .fatalf format args => ⟨.fatalf format args, r.session, r.trace⟩
  | .panic msg => ⟨.panic msg, r.session, r.trace⟩

/-- The number of requests sent in a trace. -/
def sends : List Event → Nat
  | [] => 0
  | .send _ _ :: rest => sends rest + 1
  | _ :: rest => sends rest

/-- Does the run end in `log.Fatal` or `log.Fatalf`. -/
def Outcome.isFatal {α : Type} : Outcome α → Bool
  | .fatal _ => true
  | .fatalf _ _ => true
  | .returned _ => false
  | .panic _ => false

/-- The panic of a method call through a nil pointer. -/
def nilDereference : String :=
  "runtime error: invalid memory address or nil pointer dereference"

/-- The call `http.NewRequest(method, url, body)`: `none` is the nil request
returned together with an error; otherwise the request holds the method, the
URL parsed from the string, an empty header and the body. -/
def NewRequest (W : World) (method url : String) (body : Option String) : Option Request :=
  match W.newRequestErr method url with
  | some _ => none
  | none => some { Method := method, URL := W.parseURL url, Header := [], Body := body }

/-- The call `s.client.Do(request)`: one exchange.  The jar's cookies for the
URL go out with the request, and the cookies of the response, when there are
some, are stored in the jar. -/
def Do (W : World) (s : Session) (tr : List Event) (request : Request) :
    Except Error Response × Session × List Event :=
  let cookies := W.jarCookies s.client.Jar request.URL
  let tr1 := tr ++ [Event.send request cookies]
  match W.roundTrip tr request cookies with
  | .error err => (.error err, s, tr1)
  | .ok response =>
    if response.Cookies.isEmpty then (.ok response, s, tr1)
    else
      (.ok response,
        { s with client := { s.client with Jar := s.client.Jar ++ [(request.URL, response.Cookies)] } },
        tr1)

/-- The call `ioutil.ReadAll(response.Body)`. -/
def ReadAll (response : Response) : Except Error Bytes :=
  match response.BodyErr with
  | some err => .error err
  | none => .ok response.Body

/-- The function `NewSession` (the same in the three files): a client that
skips certificate verification, with a fresh cookie jar.  `cookiejar.New(nil)`
returns no error. -/
def NewSession (user password url : String) : Session :=
  { client := { InsecureSkipVerify := true, Jar := [] }, User := user, Password := password,
    url := url }

/-- The answer of the transport to `request` sent from session `s` after the
trace `tr`. -/
def answer (W : World) (s : Session) (tr : List Event) (request : Request) :
    Except Error Response :=
  W.roundTrip tr request (W.jarCookies s.client.Jar request.URL)

/-- The GET request of the fetch operations, as it is sent: the request
`http.NewRequest` makes of the URL string, with the one header. -/
def getRequest (W : World) (url : String) : Request :=
  { Method := "GET", URL := W.parseURL url, Header := [("Accept", acceptAny)], Body := none }

/-! ## The login request -/

/-- A parsed `text/template`: literal text and field actions. -/
inductive Piece where
  | text (s : String)
  | user
  | password
deriving DecidableEq, Repr

/-- The template `logintemplate` of `doLogon`, as `tmpl.Parse` leaves it. -/
def logintemplate : List Piece :=
  [ .text ("<?xml version=\"1.0\" encoding=\"UTF-8\" standalone=\"yes\"?>\n" ++
      "  <LogonRequest xmlns=\"http://www.ibm.com/xmlns/systems/power/firmware/web/mc/2012_10/\" schemaVersion=\"V1_1_0\">\n" ++
      "    <Metadata>\n" ++
      "      <Atom/>\n" ++
      "    </Metadata>\n" ++
      "    <UserID kb=\"CUR\" kxe=\"false\">"),
    .user,
    .text ("</UserID>\n" ++
      "    <Password kb=\"CUR\" kxe=\"false\">"),
    .password,
    .text ("</Password>\n" ++
      "  </LogonRequest>") ]

/-- The call `tmpl.Execute(authrequest, s)` into an empty buffer: the pieces
are written in order, a string field as it is.  Returns the buffer. -/
def Execute : List Piece → Session → Except Error String
  | [], _ => .ok ""
  | p :: rest, s =>
    match Execute rest s with
    | .error e => .error e
    | .ok out =>
      match p with
      | .text t => .ok (t ++ out)
      | .user => .ok (s.User ++ out)
      | .password => .ok (s.Password ++ out)

/-- The text of the login body before the user. -/
def bodyHead : String :=
  "<?xml version=\"1.0\" encoding=\"UTF-8\" standalone=\"yes\"?>\n" ++
  "  <LogonRequest xmlns=\"http://www.ibm.com/xmlns/systems/power/firmware/web/mc/2012_10/\" schemaVersion=\"V1_1_0\">\n" ++
  "    <Metadata>\n" ++
  "      <Atom/>\n" ++
  "    </Metadata>\n" ++
  "    <UserID kb=\"CUR\" kxe=\"false\">"

/-- The text of the login body between the user and the password. -/
def bodyMiddle : String := "</UserID>\n    <Password kb=\"CUR\" kxe=\"false\">"

/-- The text of the login body after the password. -/
def bodyTail : String := "</Password>\n  </LogonRequest>"

/-- The URL `authurl` of `doLogon`. -/
def authurl (s : Session) : String := s.url ++ "/rest/api/web/Logon"

/-- The login request, as it is sent. -/
def loginRequest (W : World) (s : Session) : Request :=
  { Method := "PUT", URL := W.parseURL (authurl s),
    Header := [("Content-Type", "application/vnd.ibm.powervm.web+xml; type=LogonRequest"),
      ("Accept", "application/vnd.ibm.powervm.web+xml; type=LogonResponse"),
      ("X-Audit-Memento", "hmctest")],
    Body := some (bodyHead ++ s.User ++ bodyMiddle ++ s.Password ++ bodyTail) }

/-- The method `doLogon` (the same in the three files). -/
def doLogon (W : World) (s : Session) (tr : List Event) : Run Unit :=
  let authurl := s.url ++ "/rest/api/web/Logon"
  match Execute logintemplate s with
  | .error err => ⟨.fatal [.err err], s, tr⟩
  | .ok authrequest =>
    let tr := tr ++ [Event.newRequest "PUT" authurl (some authrequest)]
    match NewRequest W "PUT" authurl (some authrequest) with
    | none => ⟨.panic nilDereference, s, tr⟩
    | some request =>
      let request := request.setHeader "Content-Type"
        "application/vnd.ibm.powervm.web+xml; type=LogonRequest"
      let request := request.setHeader "Accept"
        "application/vnd.ibm.powervm.web+xml; type=LogonResponse"
      let request := request.setHeader "X-Audit-Memento" "hmctest"
      match Do W s tr request with
      | (.error err, s, tr) => ⟨.fatal [.err err], s, tr⟩
      | (.ok response, s, tr) =>
        if response.StatusCode ≠ 200 then
          ⟨.fatalf "Error status code: %d" [.int response.StatusCode], s, tr⟩
        else ⟨.returned (), s, tr ++ [Event.close]⟩

end Hmc

/-! ## `hmc_ssp_add_lu.go` -/

namespace HmcSspAddLu
open Hmc

/-- The struct `SharedStoragePool`. -/
structure SharedStoragePool where
  XMLName : Hmc.Name
  Name : String
  UUID : String
  Capacity : Float64
  FreeSpace : Float64
deriving DecidableEq, Repr

/-- The struct `Content`. -/
structure Content where
  XMLName : Hmc.Name
  SharedStoragePools : List SharedStoragePool
deriving DecidableEq, Repr

/-- The struct `Entry`. -/
structure Entry where
  XMLName : Hmc.Name
  Contents : List Content
deriving DecidableEq, Repr

/-- The struct `Feed`. -/
structure Feed where
  XMLName : Hmc.Name
  Entries : List Entry
deriving DecidableEq, Repr

/-- The zero value of `SharedStoragePool`. -/
def SharedStoragePool.zero : SharedStoragePool := ⟨⟨"", ""⟩, "", "", ⟨0⟩, ⟨0⟩⟩

/-- The zero value of `Content`. -/
def Content.zero : Content := ⟨⟨"", ""⟩, []⟩

/-- The zero value of `Entry`. -/
def Entry.zero : Entry := ⟨⟨"", ""⟩, []⟩

/-- The zero value of `Feed`. -/
def Feed.zero : Feed := ⟨⟨"", ""⟩, []⟩

/-- The fields of `SharedStoragePool`, in the order of the declaration.  The
tags of `Name` and `UUID` give a name and no name space, so they take the name
space of the struct's `XMLName`; `Capacity` and `FreeSpace` have no tag, so
they take the element of their own name in any name space. -/
def SharedStoragePool.unmarshalPath (W : World) (start : Hmc.Name) (cs : List Node)
    (sv : SharedStoragePool) : Option (Except Error SharedStoragePool) :=
  if fieldMatches uom "StoragePoolName" start then
    some (unmarshalString cs fun v => { sv with Name := v })
  else if fieldMatches uom "UniqueDeviceID" start then
    some (unmarshalString cs fun v => { sv with UUID := v })
  else if fieldMatches "" "Capacity" start then
    some (unmarshalNumber W.parseFloat cs fun v => { sv with Capacity := v })
  else if fieldMatches "" "FreeSpace" start then
    some (unmarshalNumber W.parseFloat cs fun v => { sv with FreeSpace := v })
  else none

/-- The decoding of an element into a `SharedStoragePool`. -/
def SharedStoragePool.unmarshal (W : World) (start : Hmc.Name) (cs : List Node)
    (sv : SharedStoragePool) : SharedStoragePool × Option Error :=
  unmarshalStruct uom "SharedStoragePool" (fun n v => { v with XMLName := n })
    (SharedStoragePool.unmarshalPath W) start cs sv

/-- The field of `Content`, with its tag. -/
def Content.unmarshalPath (W : World) (start : Hmc.Name) (cs : List Node) (sv : Content) :
    Option (Except Error Content) :=
  if fieldMatches uom "SharedStoragePool" start then
    some (unmarshalSlice (SharedStoragePool.unmarshal W start cs SharedStoragePool.zero)
      fun v => { sv with SharedStoragePools := sv.SharedStoragePools ++ [v] })
  else none

/-- The decoding of an element into a `Content`. -/
def Content.unmarshal (W : World) (start : Hmc.Name) (cs : List Node) (sv : Content) :
    Content × Option Error :=
  unmarshalStruct "" "content" (fun n v => { v with XMLName := n }) (Content.unmarshalPath W)
    start cs sv

/-- The field of `Entry`, with its tag. -/
def Entry.unmarshalPath (W : World) (start : Hmc.Name) (cs : List Node) (sv : Entry) :
    Option (Except Error Entry) :=
  if fieldMatches "" "content" start then
    some (unmarshalSlice (Content.unmarshal W start cs Content.zero)
      fun v => { sv with Contents := sv.Contents ++ [v] })
  else none

/-- The decoding of an element into an `Entry`. -/
def Entry.unmarshal (W : World) (start : Hmc.Name) (cs : List Node) (sv : Entry) :
    Entry × Option Error :=
  unmarshalStruct "" "entry" (fun n v => { v with XMLName := n }) (Entry.unmarshalPath W)
    start cs sv

/-- The field of `Feed`, with its tag. -/
def Feed.unmarshalPath (W : World) (start : Hmc.Name) (cs : List Node) (sv : Feed) :
    Option (Except Error Feed) :=
  if fieldMatches "" "entry" start then
    some (unmarshalSlice (Entry.unmarshal W start cs Entry.zero)
      fun v => { sv with Entries := sv.Entries ++ [v] })
  else none

/-- The decoding of an element into a `Feed`. -/
def Feed.unmarshal (W : World) (start : Hmc.Name) (cs : List Node) (sv : Feed) :
    Feed × Option Error :=
  unmarshalStruct "" "feed" (fun n v => { v with XMLName := n }) (Feed.unmarshalPath W)
    start cs sv

/-- The pool `r` with the fields of the absent child elements at their zero
value. -/
def SharedStoragePool.lacking (absent : String → Bool) (r : SharedStoragePool) :
    SharedStoragePool :=
  { XMLName := r.XMLName,
    Name := if absent "StoragePoolName" then "" else r.Name,
    UUID := if absent "UniqueDeviceID" then "" else r.UUID,
    Capacity := if absent "Capacity" then ⟨0⟩ else r.Capacity,
    FreeSpace := if absent "FreeSpace" then ⟨0⟩ else r.FreeSpace }

/-- All pools of a feed, in document order. -/
def Feed.records (feed : Feed) : List SharedStoragePool :=
  feed.Entries.flatMap fun entry => entry.Contents.flatMap fun content =>
    content.SharedStoragePools

/-- The total number of pools of a feed. -/
def Feed.count (feed : Feed) : Nat :=
  (feed.Entries.map fun entry =>
    (entry.Contents.map fun content => content.SharedStoragePools.length).sum).sum

/-- The URL `sspurl` of `searchSSP`. -/
def sspurl (s : Session) (name : String) : String :=
  s.url ++ "/rest/api/uom/SharedStoragePool/search/(StoragePoolName==" ++ name ++ ")"

/-- The header line `searchSSP` prints before the rows. -/
def heading : Event :=
  .printf "\t%-10s\t%-68s\t%-8s\t%-25s\n"
    [.str "name", .str "UUID", .str "Capacity", .str "FreeSpace"]

/-- The row `searchSSP` prints for a pool. -/
def row (ssp : SharedStoragePool) : Event :=
  .printf "\t%-10s\t%-68s\t%-8f\t%-8f\n"
    [.str ssp.Name, .str ssp.UUID, .float ssp.Capacity, .float ssp.FreeSpace]

/-- The three nested `range` loops of `searchSSP`, on the trace and the
result `ssps`. -/
def searchSSP.loops (feed : Feed) (st : List Event × List String) : List Event × List String :=
  feed.Entries.foldl (fun st entry =>
    entry.Contents.foldl (fun st content =>
      content.SharedStoragePools.foldl (fun st ssp =>
        (st.1 ++ [row ssp], st.2 ++ [ssp.UUID])) st) st) st

/-- The method `searchSSP`. -/
def searchSSP (W : World) (s : Session) (tr : List Event) (name : String) : Run (List String) :=
  let sspurl := s.url ++ "/rest/api/uom/SharedStoragePool/search/(StoragePoolName==" ++ name ++ ")"
  let tr := tr ++ [Event.newRequest "GET" sspurl none]
  match NewRequest W "GET" sspurl none with
  | none => ⟨.panic nilDereference, s, tr⟩
  | some request =>
    let request := request.setHeader "Accept" acceptAny
    match Do W s tr request with
    | (.error err, s, tr) => ⟨.fatal [.err err], s, tr⟩
    | (.ok response, s, tr) =>
      let tr := tr ++ [Event.readAll]
      match ReadAll response with
      | .error err => ⟨.fatal [.err err], s, tr⟩
      | .ok contents =>
        if response.StatusCode ≠ 200 then
          ⟨.fatalf "Error getting SSP informations. status code: %d" [.int response.StatusCode],
            s, tr⟩
        else
          match Unmarshal (Feed.unmarshal W) (W.tokens contents) Feed.zero with
          | (_, some new_err) => ⟨.fatal [.err new_err], s, tr⟩
          | (feed, none) =>
            let tr := tr ++ [Event.printf "\t%-10s\t%-68s\t%-8s\t%-25s\n"
              [.str "name", .str "UUID", .str "Capacity", .str "FreeSpace"]]
            let st := searchSSP.loops feed (tr, [])
            ⟨.returned st.2, s, st.1 ++ [Event.close]⟩

/-- The function `main`, from the values of the flags on. -/
def main (W : World) (user password ssp_name url : String) : Run Unit :=
  let session := NewSession user password url
  (doLogon W session []).andThen fun _ s tr =>
    (searchSSP W s tr ssp_name).andThen fun ssps s tr =>
      ⟨.returned (), s, ssps.foldl (fun tr ssp => tr ++ [Event.println [.str ssp]]) tr⟩

end HmcSspAddLu

/-! ## `hmc_lpar_list_test.go` -/

namespace HmcLparList
open Hmc

/-- The struct `LogicalPartition`. -/
structure LogicalPartition where
  XMLName : Hmc.Name
  PartitionName : String
  PartitionID : Int
  PartitionUUID : String
  LogicalSerialNumber : String
  OperatingSystemVersion : String
deriving DecidableEq, Repr

/-- The struct `Content`. -/
structure Content where
  XMLName : Hmc.Name
  Lpar : List LogicalPartition
deriving DecidableEq, Repr

/-- The struct `Entry`. -/
structure Entry where
  XMLName : Hmc.Name
  Contents : List Content
deriving DecidableEq, Repr

/-- The struct `Feed`. -/
structure Feed where
  XMLName : Hmc.Name
  Entries : List Entry
deriving DecidableEq, Repr

/-- The zero value of `LogicalPartition`. -/
def LogicalPartition.zero : LogicalPartition := ⟨⟨"", ""⟩, "", 0, "", "", ""⟩

/-- The zero value of `Content`. -/
def Content.zero : Content := ⟨⟨"", ""⟩, []⟩

/-- The zero value of `Entry`. -/
def Entry.zero : Entry := ⟨⟨"", ""⟩, []⟩

/-- The zero value of `Feed`. -/
def Feed.zero : Feed := ⟨⟨"", ""⟩, []⟩

/-- The fields of `LogicalPartition`, in the order of the declaration; none
has a tag, so each takes the element of its own name. -/
def LogicalPartition.unmarshalPath (W : World) (start : Hmc.Name) (cs : List Node)
    (sv : LogicalPartition) : Option (Except Error LogicalPartition) :=
  if fieldMatches "" "PartitionName" start then
    some (unmarshalString cs fun v => { sv with PartitionName := v })
  else if fieldMatches "" "PartitionID" start then
    some (unmarshalNumber W.parseInt cs fun v => { sv with PartitionID := v })
  else if fieldMatches "" "PartitionUUID" start then
    some (unmarshalString cs fun v => { sv with PartitionUUID := v })
  else if fieldMatches "" "LogicalSerialNumber" start then
    some (unmarshalString cs fun v => { sv with LogicalSerialNumber := v })
  else if fieldMatches "" "OperatingSystemVersion" start then
    some (unmarshalString cs fun v => { sv with OperatingSystemVersion := v })
  else none

/-- The decoding of an element into a `LogicalPartition`. -/
def LogicalPartition.unmarshal (W : World) (start : Hmc.Name) (cs : List Node)
    (sv : LogicalPartition) : LogicalPartition × Option Error :=
  unmarshalStruct uom "LogicalPartition" (fun n v => { v with XMLName := n })
    (LogicalPartition.unmarshalPath W) start cs sv

/-- The field of `Content`, with its tag. -/
def Content.unmarshalPath (W : World) (start : Hmc.Name) (cs : List Node) (sv : Content) :
    Option (Except Error Content) :=
  if fieldMatches uom "LogicalPartition" start then
    some (unmarshalSlice (LogicalPartition.unmarshal W start cs LogicalPartition.zero)
      fun v => { sv with Lpar := sv.Lpar ++ [v] })
  else none

/-- The decoding of an element into a `Content`. -/
def Content.unmarshal (W : World) (start : Hmc.Name) (cs : List Node) (sv : Content) :
    Content × Option Error :=
  unmarshalStruct "" "content" (fun n v => { v with XMLName := n }) (Content.unmarshalPath W)
    start cs sv

/-- The field of `Entry`, with its tag. -/
def Entry.unmarshalPath (W : World) (start : Hmc.Name) (cs : List Node) (sv : Entry) :
    Option (Except Error Entry) :=
  if fieldMatches "" "content" start then
    some (unmarshalSlice (Content.unmarshal W start cs Content.zero)
      fun v => { sv with Contents := sv.Contents ++ [v] })
  else none

/-- The decoding of an element into an `Entry`. -/
def Entry.unmarshal (W : World) (start : Hmc.Name) (cs : List Node) (sv : Entry) :
    Entry × Option Error :=
  unmarshalStruct "" "entry" (fun n v => { v with XMLName := n }) (Entry.unmarshalPath W)
    start cs sv

/-- The field of `Feed`, with its tag. -/
def Feed.unmarshalPath (W : World) (start : Hmc.Name) (cs : List Node) (sv : Feed) :
    Option (Except Error Feed) :=
  if fieldMatches "" "entry" start then
    some (unmarshalSlice (Entry.unmarshal W start cs Entry.zero)
      fun v => { sv with Entries := sv.Entries ++ [v] })
  else none

/-- The decoding of an element into a `Feed`. -/
def Feed.unmarshal (W : World) (start : Hmc.Name) (cs : List Node) (sv : Feed) :
    Feed × Option Error :=
  unmarshalStruct "" "feed" (fun n v => { v with XMLName := n }) (Feed.unmarshalPath W)
    start cs sv

/-- The partition `r` with the fields of the absent child elements at their
zero value. -/
def LogicalPartition.lacking (absent : String → Bool) (r : LogicalPartition) :
    LogicalPartition :=
  { XMLName := r.XMLName,
    PartitionName := if absent "PartitionName" then "" else r.PartitionName,
    PartitionID := if absent "PartitionID" then 0 else r.PartitionID,
    PartitionUUID := if absent "PartitionUUID" then "" else r.PartitionUUID,
    LogicalSerialNumber := if absent "LogicalSerialNumber" then "" else r.LogicalSerialNumber,
    OperatingSystemVersion :=
      if absent "OperatingSystemVersion" then "" else r.OperatingSystemVersion }

/-- All partitions of a feed, in document order. -/
def Feed.records (feed : Feed) : List LogicalPartition :=
  feed.Entries.flatMap fun entry => entry.Contents.flatMap fun content => content.Lpar

/-- The total number of partitions of a feed. -/
def Feed.count (feed : Feed) : Nat :=
  (feed.Entries.map fun entry =>
    (entry.Contents.map fun content => content.Lpar.length).sum).sum

/-- The URL `mgdurl` of `getManaged`. -/
def mgdurl (s : Session) : String := s.url ++ "/rest/api/uom/LogicalPartition"

/-- The header line `getManaged` prints before the rows. -/
def heading : Event :=
  .printf "\t%-10s\t%-40s\t%-8s\t%-25s\n"
    [.str "partition", .str "UUID", .str "LSERIAL", .str "OS"]

/-- The row `getManaged` prints for a partition. -/
def row (lpar : LogicalPartition) : Event :=
  .printf "\t%-10s\t%-40s\t%-8s\t%-25s\n"
    [.str lpar.PartitionName, .str lpar.PartitionUUID, .str lpar.LogicalSerialNumber,
      .str lpar.OperatingSystemVersion]

/-- The three nested `range` loops of `getManaged`, on the trace. -/
def getManaged.loops (feed : Feed) (tr : List Event) : List Event :=
  feed.Entries.foldl (fun tr entry =>
    entry.Contents.foldl (fun tr content =>
      content.Lpar.foldl (fun tr lpar => tr ++ [row lpar]) tr) tr) tr

/-- The method `getManaged`. -/
def getManaged (W : World) (s : Session) (tr : List Event) : Run Unit :=
  let mgdurl := s.url ++ "/rest/api/uom/LogicalPartition"
  let tr := tr ++ [Event.newRequest "GET" mgdurl none]
  match NewRequest W "GET" mgdurl none with
  | none => ⟨.panic nilDereference, s, tr⟩
  | some request =>
    let request := request.setHeader "Accept" acceptAny
    match Do W s tr request with
    | (.error err, s, tr) => ⟨.fatal [.err err], s, tr⟩
    | (.ok response, s, tr) =>
      let tr := tr ++ [Event.readAll]
      match ReadAll response with
      | .error err => ⟨.fatal [.err err], s, tr⟩
      | .ok contents =>
        if response.StatusCode ≠ 200 then
          ⟨.fatalf "Error getting LPAR informations. status code: %d" [.int response.StatusCode],
            s, tr⟩
        else
          match Unmarshal (Feed.unmarshal W) (W.tokens contents) Feed.zero with
          | (_, some new_err) => ⟨.fatal [.err new_err], s, tr⟩
          | (feed, none) =>
            let tr := tr ++ [Event.printf "\t%-10s\t%-40s\t%-8s\t%-25s\n"
              [.str "partition", .str "UUID", .str "LSERIAL", .str "OS"]]
            ⟨.returned (), s, getManaged.loops feed tr ++ [Event.close]⟩

/-- The function `main`, from the values of the flags on. -/
def main (W : World) (user password url : String) : Run Unit :=
  let session := NewSession user password url
  (doLogon W session []).andThen fun _ s tr => getManaged W s tr

end HmcLparList

/-! ## `hmctest.go` -/

namespace Hmctest
open Hmc

/-- The struct `LogicalPartition`. -/
structure LogicalPartition where
  XMLName : Hmc.Name
  PartitionName : String
  PartitionID : Int
  PartitionUUID : String
  AllowPerformanceDataCollection : String
deriving DecidableEq, Repr

/-- The struct `Content`. -/
structure Content where
  XMLName : Hmc.Name
  Lpar : List LogicalPartition
deriving DecidableEq, Repr

/-- The struct `Entry`. -/
structure Entry where
  XMLName : Hmc.Name
  Contents : List Content
deriving DecidableEq, Repr

/-- The struct `Feed`. -/
structure Feed where
  XMLName : Hmc.Name
  Entries : List Entry
deriving DecidableEq, Repr

/-- The zero value of `LogicalPartition`. -/
def LogicalPartition.zero : LogicalPartition := ⟨⟨"", ""⟩, "", 0, "", ""⟩

/-- The zero value of `Content`. -/
def Content.zero : Content := ⟨⟨"", ""⟩, []⟩

/-- The zero value of `Entry`. -/
def Entry.zero : Entry := ⟨⟨"", ""⟩, []⟩

/-- The zero value of `Feed`. -/
def Feed.zero : Feed := ⟨⟨"", ""⟩, []⟩

/-- The fields of `LogicalPartition`, in the order of the declaration; none
has a tag, so each takes the element of its own name. -/
def LogicalPartition.unmarshalPath (W : World) (start : Hmc.Name) (cs : List Node)
    (sv : LogicalPartition) : Option (Except Error LogicalPartition) :=
  if fieldMatches "" "PartitionName" start then
    some (unmarshalString cs fun v => { sv with PartitionName := v })
  else if fieldMatches "" "PartitionID" start then
    some (unmarshalNumber W.parseInt cs fun v => { sv with PartitionID := v })
  else if fieldMatches "" "PartitionUUID" start then
    some (unmarshalString cs fun v => { sv with PartitionUUID := v })
  else if fieldMatches "" "AllowPerformanceDataCollection" start then
    some (unmarshalString cs fun v => { sv with AllowPerformanceDataCollection := v })
  else none

/-- The decoding of an element into a `LogicalPartition`. -/
def LogicalPartition.unmarshal (W : World) (start : Hmc.Name) (cs : List Node)
    (sv : LogicalPartition) : LogicalPartition × Option Error :=
  unmarshalStruct uom "LogicalPartition" (fun n v => { v with XMLName := n })
    (LogicalPartition.unmarshalPath W) start cs sv

/-- The field of `Content`, with its tag. -/
def Content.unmarshalPath (W : World) (start : Hmc.Name) (cs : List Node) (sv : Content) :
    Option (Except Error Content) :=
  if fieldMatches uom "LogicalPartition" start then
    some (unmarshalSlice (LogicalPartition.unmarshal W start cs LogicalPartition.zero)
      fun v => { sv with Lpar := sv.Lpar ++ [v] })
  else none

/-- The decoding of an element into a `Content`. -/
def Content.unmarshal (W : World) (start : Hmc.Name) (cs : List Node) (sv : Content) :
    Content × Option Error :=
  unmarshalStruct "" "content" (fun n v => { v with XMLName := n }) (Content.unmarshalPath W)
    start cs sv

/-- The field of `Entry`, with its tag. -/
def Entry.unmarshalPath (W : World) (start : Hmc.Name) (cs : List Node) (sv : Entry) :
    Option (Except Error Entry) :=
  if fieldMatches "" "content" start then
    some (unmarshalSlice (Content.unmarshal W start cs Content.zero)
      fun v => { sv with Contents := sv.Contents ++ [v] })
  else none

/-- The decoding of an element into an `Entry`. -/
def Entry.unmarshal (W : World) (start : Hmc.Name) (cs : List Node) (sv : Entry) :
    Entry × Option Error :=
  unmarshalStruct "" "entry" (fun n v => { v with XMLName := n }) (Entry.unmarshalPath W)
    start cs sv

/-- The field of `Feed`, with its tag. -/
def Feed.unmarshalPath (W : World) (start : Hmc.Name) (cs : List Node) (sv : Feed) :
    Option (Except Error Feed) :=
  if fieldMatches "" "entry" start then
    some (unmarshalSlice (Entry.unmarshal W start cs Entry.zero)
      fun v => { sv with Entries := sv.Entries ++ [v] })
  else none

/-- The decoding of an element into a `Feed`. -/
def Feed.unmarshal (W : World) (start : Hmc.Name) (cs : List Node) (sv : Feed) :
    Feed × Option Error :=
  unmarshalStruct "" "feed" (fun n v => { v with XMLName := n }) (Feed.unmarshalPath W)
    start cs sv

/-- All partitions of a feed, in document order. -/
def Feed.records (feed : Feed) : List LogicalPartition :=
  feed.Entries.flatMap fun entry => entry.Contents.flatMap fun content => content.Lpar

/-- The total number of partitions of a feed. -/
def Feed.count (feed : Feed) : Nat :=
  (feed.Entries.map fun entry =>
    (entry.Contents.map fun content => content.Lpar.length).sum).sum

/-- The URL `mgdurl` of `getManaged`. -/
def mgdurl (s : Session) : String := s.url ++ "/rest/api/uom/LogicalPartition"

/-- The row `getManaged` prints for a partition. -/
def row (lpar : LogicalPartition) : Event :=
  .printf "\t%s\t%s\t%s\n"
    [.str lpar.PartitionName, .str lpar.PartitionUUID, .str lpar.AllowPerformanceDataCollection]

/-- The three nested `range` loops of `getManaged`, on the trace. -/
def getManaged.loops (feed : Feed) (tr : List Event) : List Event :=
  feed.Entries.foldl (fun tr entry =>
    entry.Contents.foldl (fun tr content =>
      content.Lpar.foldl (fun tr lpar => tr ++ [row lpar]) tr) tr) tr

/-- What `getManaged` prints between reading the body and decoding it: the
length of the body, the status code and the header. -/
def report (s : Session) (r : Response) : List Event :=
  [Event.println [.str "The calculated length is:", .int (Int.ofNat r.Body.length),
      .str "for the url:", .str (mgdurl s)],
    Event.println [.str "   ", .int r.StatusCode]] ++
  r.Header.map fun kv => Event.println [.str "   ", .str kv.1, .str ":", .strs kv.2]

/-- The line `getManaged` prints for the error of the decoder. -/
def complaint : Option Error → List Event
  | some e => [Event.println [.err e]]
  | none => []

/-- The method `getManaged`.  The status code and the header are printed and
the body is decoded whatever the status; a decoding error is printed and the
loops run on what `feed` holds by then. -/
def getManaged (W : World) (s : Session) (tr : List Event) : Run Unit :=
  let mgdurl := s.url ++ "/rest/api/uom/LogicalPartition"
  let tr := tr ++ [Event.newRequest "GET" mgdurl none]
  match NewRequest W "GET" mgdurl none with
  | none => ⟨.panic nilDereference, s, tr⟩
  | some request =>
    let request := request.setHeader "Accept" acceptAny
    match Do W s tr request with
    | (.error err, s, tr) => ⟨.fatal [.err err], s, tr⟩
    | (.ok response, s, tr) =>
      let tr := tr ++ [Event.readAll]
      match ReadAll response with
      | .error err => ⟨.fatal [.err err], s, tr⟩
      | .ok contents =>
        let tr := tr ++ [Event.println [.str "The calculated length is:",
          .int (Int.ofNat contents.length), .str "for the url:", .str mgdurl]]
        let tr := tr ++ [Event.println [.str "   ", .int response.StatusCode]]
        let tr := response.Header.foldl (fun tr kv =>
          tr ++ [Event.println [.str "   ", .str kv.1, .str ":", .strs kv.2]]) tr
        let (feed, new_err) := Unmarshal (Feed.unmarshal W) (W.tokens contents) Feed.zero
        let tr := match new_err with
          | some e => tr ++ [Event.println [.err e]]
          | none => tr
        ⟨.returned (), s, getManaged.loops feed tr ++ [Event.close]⟩

/-- The function `main`, from the values of the flags on. -/
def main (W : World) (user password url : String) : Run Unit :=
  let session := NewSession user password url
  (doLogon W session []).andThen fun _ s tr => getManaged W s tr

end Hmctest

/-! ## Shapes of documents -/

namespace Hmc

/-- The child elements among a list of nodes, in order. -/
def elements : List Node → List (Name × List Node)
  | [] => []
  | .element start cs :: rest => (start, cs) :: elements rest
  | .charData _ :: rest => elements rest
  | .misc :: rest => elements rest
  | .fail _ :: rest => elements rest

/-- Is the node character data, a comment, a processing instruction or a
directive: what `xml.Unmarshal` passes over before the root element. -/
def Node.passedOver : Node → Bool
  | .charData _ => true
  | .misc => true
  | .element _ _ => false
  | .fail _ => false

/-- The children of a content element hold no element `domain` of the name
space `uom`. -/
def emptyContent (domain : String) (cs : List Node) : Bool :=
  (elements cs).all fun d => !fieldMatches uom domain d.1

/-- No content element among the children of an entry holds a domain
element. -/
def emptyEntry (domain : String) (cs : List Node) : Bool :=
  (elements cs).all fun c => !fieldMatches "" "content" c.1 || emptyContent domain c.2

/-- No entry among the children of a feed holds a domain element: the feed
has no entry, or its entries have no content, or their contents have no
element `domain` of the name space `uom`. -/
def emptyFeed (domain : String) (cs : List Node) : Bool :=
  (elements cs).all fun e => !fieldMatches "" "entry" e.1 || emptyEntry domain e.2

/-- The children of an element without the child elements whose local name
is `absent`. -/
def without (absent : String → Bool) : List Node → List Node
  | [] => []
  | .element start cs :: rest =>
    if absent start.Local then without absent rest
    else .element start cs :: without absent rest
  | .charData t :: rest => .charData t :: without absent rest
  | .misc :: rest => .misc :: without absent rest
  | .fail e :: rest => .fail e :: without absent rest

/-- The function `g` applied to the value a field decoder stores. -/
def mapOk {σ : Type} (g : σ → σ) : Option (Except Error σ) → Option (Except Error σ)
  | none => none
  | some (.ok sv1) => some (.ok (g sv1))
  | some (.error e) => some (.error e)

end Hmc

/-! ## Sample worlds and documents -/

namespace Hmc

/-- Is every `%` of the text followed by two hexadecimal digits: one of the
checks by which `url.Parse`, and so `http.NewRequest`, rejects a URL. -/
def validEscapes : List Char → Bool
  | [] => true
  | c :: rest =>
    if c = '%' then
      match rest with
      | a :: b :: _ => ishex a && ishex b && validEscapes rest
      | _ => false
    else validEscapes rest

/-- A decimal reading of character data, for the sample worlds. -/
def sampleInt (data : String) : Except Error Int :=
  if data.data.all Char.isDigit then
    .ok (Int.ofNat (data.data.foldl (fun n c => 10 * n + (c.toNat - 48)) 0))
  else .error "invalid syntax"

/-- The bytes of a text of ASCII characters. -/
def bytesOf (text : String) : Bytes := text.data.map fun c => Fin.ofNat c.toNat

/-- A reading of a URL string of the form `scheme://host/path?query`, the
path being stored by `setPath`. -/
def sampleParse (rawURL : String) : URL :=
  let rest := (rawURL.data.dropWhile fun c => c != ':').drop 3
  let tail := rest.dropWhile fun c => c != '/'
  let p := String.mk (tail.takeWhile fun c => c != '?')
  let fields := match setPath p with
    | .ok r => r
    | .error _ => (p, "")
  { Scheme := String.mk (rawURL.data.takeWhile fun c => c != ':'), Opaque := "",
    Host := String.mk (rest.takeWhile fun c => c != '/'),
    Path := fields.1, RawPath := fields.2, ForceQuery := false,
    RawQuery := String.mk ((tail.dropWhile fun c => c != '?').drop 1) }

/-- A jar that follows the path rule of `net/http/cookiejar`: a cookie goes
to the URLs of the host that set it whose path matches the cookie's path,
which is its `Path` attribute or, without one, the default path of the URL
that set it.  Expiry, `Secure`, `Domain` and the replacing of a cookie by a
later one of the same name are left out. -/
def sampleJar (jar : Jar) (u : URL) : List Cookie :=
  jar.flatMap fun p =>
    (p.2.filter fun c =>
      p.1.Host == u.Host &&
        pathMatch (if u.Path == "" then "/" else u.Path)
          (if c.Path.data.head? != some '/' then defaultPath p.1.Path else c.Path)).map
      fun c => { Name := c.Name, Value := c.Value, Path := "" }

/-- A world in which `http.NewRequest` rejects the URLs with a malformed
percent escape and reads the others by `sampleParse`, the server answers the
login request with `login` and every other request with `fetch`, the jar is
`sampleJar`, and the tokenizer reads the bytes of `text` as `doc` and finds a
syntax error in any other body. -/
def sampleWorld (login fetch : Except Error Response) (text : String) (doc : List Node) :
    World where
  newRequestErr := fun _ url => if validEscapes url.data then none else some "invalid URL escape"
  parseURL := sampleParse
  roundTrip := fun _ request _ => if request.Method == "PUT" then login else fetch
  jarCookies := sampleJar
  tokens := fun body =>
    if body = bytesOf text then doc else [.fail "XML syntax error on line 1: unexpected EOF"]
  parseInt := sampleInt
  parseFloat := fun _ => .ok ⟨0⟩

/-- A response with the given status, cookies and body text, the body being
readable to its end. -/
def sampleResponse (status : Int) (cookies : List Cookie) (text : String) : Response :=
  { StatusCode := status, Header := [], Cookies := cookies, Body := bytesOf text,
    BodyErr := none }

/-- A world without a server: every exchange fails in the transport. -/
def offline : World :=
  sampleWorld (.error "connection refused") (.error "connection refused") "" []

/-- A world whose server answers the login with the status 401. -/
def refusing : World :=
  sampleWorld (.ok (sampleResponse 401 [] "")) (.error "connection refused") "" []

/-- A world whose server answers the login with the status 200 and the one
cookie `cookie`, and every other request with the given status and the body
`text`, which the tokenizer reads as `doc`. -/
def servingWith (cookie : Cookie) (status : Int) (text : String) (doc : List Node) : World :=
  sampleWorld (.ok (sampleResponse 200 [cookie] ""))
    (.ok (sampleResponse status [] text)) text doc

/-- The world `servingWith` for the cookie `JSESSIONID=abc; Path=/`. -/
def serving (status : Int) (text : String) (doc : List Node) : World :=
  servingWith ⟨"JSESSIONID", "abc", "/"⟩ status text doc

/-- The tokens of the body `<feed/>`. -/
def feedOnly : List Node := [Node.element ⟨"", "feed"⟩ []]

/-- A world whose server sets `JSESSIONID=abc; Path=/` at the login and
answers every other request with the status 200 and the body `<feed/>`. -/
def servingRooted : World := serving 200 "<feed/>" feedOnly

/-- A world whose server sets `JSESSIONID=abc`, without a `Path` attribute,
at the login and answers every other request with the status 200 and the
body `<feed/>`. -/
def servingBare : World := servingWith ⟨"JSESSIONID", "abc", ""⟩ 200 "<feed/>" feedOnly

/-- An element of the Atom envelope. -/
def atom (name : String) (children : List Node) : Node :=
  .element ⟨"http://www.w3.org/2005/Atom", name⟩ children

/-- A domain element or one of its fields, in the name space `uom`. -/
def el (name : String) (children : List Node) : Node := .element ⟨uom, name⟩ children

/-- The session of the examples. -/
def sampleSession : Session := NewSession "hscroot" "abc123" "https://myhmc:12443"

/-- The text of a feed with the two partitions `lpar1` (UUID `u1`) and `lpar2`
(UUID `u2`), each in an entry of its own. -/
def twoPartitionsText : String :=
  "<?xml version=\"1.0\" encoding=\"UTF-8\"?>" ++
  "<feed xmlns=\"http://www.w3.org/2005/Atom\"><id>f</id>" ++
  "<entry><content type=\"application/vnd.ibm.powervm.uom+xml; type=LogicalPartition\">" ++
  "<LogicalPartition xmlns=\"http://www.ibm.com/xmlns/systems/power/firmware/uom/mc/2012_10/\">" ++
  "<PartitionName>lpar1</PartitionName><PartitionUUID>u1</PartitionUUID>" ++
  "</LogicalPartition></content></entry>" ++
  "<entry><content type=\"application/vnd.ibm.powervm.uom+xml; type=LogicalPartition\">" ++
  "<LogicalPartition xmlns=\"http://www.ibm.com/xmlns/systems/power/firmware/uom/mc/2012_10/\">" ++
  "<PartitionName>lpar2</PartitionName><PartitionUUID>u2</PartitionUUID>" ++
  "</LogicalPartition></content></entry>" ++
  "</feed>"

/-- The tokens of `twoPartitionsText`. -/
def twoPartitions : List Node :=
  [ .misc,
    atom "feed" [
      atom "id" [.charData "f"],
      atom "entry" [atom "content" [el "LogicalPartition" [
        el "PartitionName" [.charData "lpar1"], el "PartitionUUID" [.charData "u1"]]]],
      atom "entry" [atom "content" [el "LogicalPartition" [
        el "PartitionName" [.charData "lpar2"], el "PartitionUUID" [.charData "u2"]]]]] ]

/-- The text `twoPartitionsText` cut off in the second partition, inside the
start tag of its `PartitionUUID`. -/
def truncatedText : String :=
  "<?xml version=\"1.0\" encoding=\"UTF-8\"?>" ++
  "<feed xmlns=\"http://www.w3.org/2005/Atom\"><id>f</id>" ++
  "<entry><content type=\"application/vnd.ibm.powervm.uom+xml; type=LogicalPartition\">" ++
  "<LogicalPartition xmlns=\"http://www.ibm.com/xmlns/systems/power/firmware/uom/mc/2012_10/\">" ++
  "<PartitionName>lpar1</PartitionName><PartitionUUID>u1</PartitionUUID>" ++
  "</LogicalPartition></content></entry>" ++
  "<entry><content type=\"application/vnd.ibm.powervm.uom+xml; type=LogicalPartition\">" ++
  "<LogicalPartition xmlns=\"http://www.ibm.com/xmlns/systems/power/firmware/uom/mc/2012_10/\">" ++
  "<PartitionName>lpar2</PartitionName><Partit"

/-- The tokens of `truncatedText`: the tokenizer reports the unexpected end of
the input where the text stops. -/
def truncated : List Node :=
  [ .misc,
    atom "feed" [
      atom "id" [.charData "f"],
      atom "entry" [atom "content" [el "LogicalPartition" [
        el "PartitionName" [.charData "lpar1"], el "PartitionUUID" [.charData "u1"]]]],
      atom "entry" [atom "content" [el "LogicalPartition" [
        el "PartitionName" [.charData "lpar2"],
        .fail "XML syntax error on line 1: unexpected EOF"]]]] ]

/-- The text of a feed with the two pools `ssp1` and `ssp2` of the same UUID
`d1`, in one content element. -/
def twoPoolsText : String :=
  "<feed xmlns=\"http://www.w3.org/2005/Atom\">" ++
  "<entry><content type=\"application/vnd.ibm.powervm.uom+xml; type=SharedStoragePool\">" ++
  "<SharedStoragePool xmlns=\"http://www.ibm.com/xmlns/systems/power/firmware/uom/mc/2012_10/\">" ++
  "<StoragePoolName>ssp1</StoragePoolName><UniqueDeviceID>d1</UniqueDeviceID>" ++
  "</SharedStoragePool>" ++
  "<SharedStoragePool xmlns=\"http://www.ibm.com/xmlns/systems/power/firmware/uom/mc/2012_10/\">" ++
  "<StoragePoolName>ssp2</StoragePoolName><UniqueDeviceID>d1</UniqueDeviceID>" ++
  "</SharedStoragePool></content></entry>" ++
  "</feed>"

/-- The tokens of `twoPoolsText`. -/
def twoPools : List Node :=
  [ atom "feed" [
      atom "entry" [atom "content" [
        el "SharedStoragePool" [
          el "StoragePoolName" [.charData "ssp1"], el "UniqueDeviceID" [.charData "d1"]],
        el "SharedStoragePool" [
          el "StoragePoolName" [.charData "ssp2"], el "UniqueDeviceID" [.charData "d1"]]]]] ]

end Hmc

/-! ## Lemmas -/

namespace Hmc

theorem foldl_pair_append {α β γ : Type} (F : α → List β) (G : α → List γ)
    (step : List β × List γ → α → List β × List γ)
    (h : ∀ st x, step st x = (st.1 ++ F x, st.2 ++ G x)) (l : List α) (st : List β × List γ) :
    l.foldl step st = (st.1 ++ l.flatMap F, st.2 ++ l.flatMap G) := by
  induction l generalizing st with
  | nil => simp
  | cons x xs ih => simp [List.foldl_cons, ih, h, List.flatMap_cons, List.append_assoc]

theorem foldl_append {α β : Type} (F : α → List β) (step : List β → α → List β)
    (h : ∀ st x, step st x = st ++ F x) (l : List α) (st : List β) :
    l.foldl step st = st ++ l.flatMap F := by
  induction l generalizing st with
  | nil => simp
  | cons x xs ih => simp [List.foldl_cons, ih, h, List.flatMap_cons, List.append_assoc]

theorem length_flatMap_sum {α β : Type} (F : α → List β) (l : List α) :
    (l.flatMap F).length = (l.map fun x => (F x).length).sum := by
  induction l with
  | nil => simp
  | cons x xs ih => simp [List.flatMap_cons, ih]

theorem flatMap_single {α β : Type} (f : α → β) (l : List α) :
    (l.flatMap fun x => [f x]) = l.map f := by
  induction l with
  | nil => rfl
  | cons x xs ih => simp [List.flatMap_cons, ih]

theorem Skip_cons (n : Node) (ns : List Node) :
    Skip (n :: ns) = none ↔ n.firstFail = none ∧ Skip ns = none := by
  rw [Skip]
  cases h : n.firstFail <;> simp

theorem fieldMatches_checkXMLName (xmlns name : String) (start : Name)
    (h : fieldMatches xmlns name start = true) : checkXMLName xmlns name start = none := by
  unfold fieldMatches at h
  unfold checkXMLName
  simp only [Bool.and_eq_true, Bool.or_eq_true, beq_iff_eq] at h
  obtain ⟨h1, h2⟩ := h
  have e1 : (name != "" && name != start.Local) = false := by simp [h2]
  have e2 : (xmlns != "" && xmlns != start.Space) = false := by
    rcases h1 with h1 | h1 <;> simp [h1]
  simp [e1, e2]

theorem unmarshalFields_inv {σ : Type}
    (h : Name → List Node → σ → Option (Except Error σ)) (P : σ → Prop) (cs : List Node)
    (hclean : Skip cs = none)
    (hstep : ∀ start cs' sv, (start, cs') ∈ elements cs → Skip cs' = none → P sv →
      h start cs' sv = none ∨ ∃ sv', h start cs' sv = some (.ok sv') ∧ P sv')
    (sv : σ) (hP : P sv) : ∃ sv', unmarshalFields h cs sv = (sv', none) ∧ P sv' := by
  induction cs generalizing sv with
  | nil => exact ⟨sv, rfl, hP⟩
  | cons n ns ih =>
    rw [Skip_cons] at hclean
    obtain ⟨hn, hns⟩ := hclean
    cases n with
    | element start cs' =>
      have hcs' : Skip cs' = none := by simpa [Node.firstFail] using hn
      have hstep' : ∀ start cs' sv, (start, cs') ∈ elements ns → Skip cs' = none → P sv →
          h start cs' sv = none ∨ ∃ sv', h start cs' sv = some (.ok sv') ∧ P sv' := by
        intro a b c hmem
        exact hstep a b c (by simp [elements, hmem])
      rcases hstep start cs' sv (by simp [elements]) hcs' hP with hnone | ⟨sv1, hsome, hP1⟩
      · simp only [unmarshalFields, hnone, hcs']
        exact ih hns hstep' sv hP
      · simp only [unmarshalFields, hsome]
        exact ih hns hstep' sv1 hP1
    | charData t =>
      simp only [unmarshalFields]
      exact ih hns (fun a b c hmem => hstep a b c (by simpa [elements] using hmem)) sv hP
    | misc =>
      simp only [unmarshalFields]
      exact ih hns (fun a b c hmem => hstep a b c (by simpa [elements] using hmem)) sv hP
    | fail e => simp [Node.firstFail] at hn

theorem Unmarshal_root {σ : Type} (f : Name → List Node → σ → σ × Option Error)
    (pre : List Node) (root : Name) (cs post : List Node) (v : σ)
    (hpre : pre.all Node.passedOver = true) :
    Unmarshal f (pre ++ Node.element root cs :: post) v = f root cs v := by
  induction pre with
  | nil => rfl
  | cons n ns ih =>
    simp only [List.all_cons, Bool.and_eq_true] at hpre
    cases n with
    | element a b => simp [Node.passedOver] at hpre
    | charData t => simpa [Unmarshal] using ih hpre.2
    | misc => simpa [Unmarshal] using ih hpre.2
    | fail e => simp [Node.passedOver] at hpre

theorem unmarshalFields_without {σ : Type}
    (h : Name → List Node → σ → Option (Except Error σ)) (m : σ → σ) (absent : String → Bool)
    (H1 : ∀ start cs1 sv sv1, absent start.Local = true → h start cs1 sv = some (.ok sv1) →
      m sv1 = m sv)
    (H2 : ∀ start cs1 sv, absent start.Local = false →
      h start cs1 (m sv) = mapOk m (h start cs1 sv))
    (cs : List Node) (sv r : σ) (hfull : unmarshalFields h cs sv = (r, none)) :
    unmarshalFields h (without absent cs) (m sv) = (m r, none) := by
  induction cs generalizing sv with
  | nil =>
    simp only [unmarshalFields, Prod.mk.injEq, and_true] at hfull
    simp [without, unmarshalFields, hfull]
  | cons n ns ih =>
    cases n with
    | element start cs1 =>
      cases hab : absent start.Local with
      | true =>
        simp only [without, hab, if_true]
        cases hh : h start cs1 sv with
        | none =>
          simp only [unmarshalFields, hh] at hfull
          cases hs : Skip cs1 with
          | none => simp only [hs] at hfull; exact ih sv hfull
          | some e => simp [hs] at hfull
        | some res =>
          cases res with
          | error e => simp [unmarshalFields, hh] at hfull
          | ok sv1 =>
            simp only [unmarshalFields, hh] at hfull
            rw [← H1 start cs1 sv sv1 hab hh]
            exact ih sv1 hfull
      | false =>
        simp only [without, hab, Bool.false_eq_true, if_false]
        have h2 := H2 start cs1 sv hab
        cases hh : h start cs1 sv with
        | none =>
          simp only [hh, mapOk] at h2
          simp only [unmarshalFields, hh] at hfull
          simp only [unmarshalFields, h2]
          cases hs : Skip cs1 with
          | none => simp only [hs] at hfull ⊢; exact ih sv hfull
          | some e => simp [hs] at hfull
        | some res =>
          cases res with
          | error e => simp [unmarshalFields, hh] at hfull
          | ok sv1 =>
            simp only [hh, mapOk] at h2
            simp only [unmarshalFields, hh] at hfull
            simp only [unmarshalFields, h2]
            exact ih sv1 hfull
    | charData t =>
      simp only [unmarshalFields] at hfull
      simp only [without, unmarshalFields]
      exact ih sv hfull
    | misc =>
      simp only [unmarshalFields] at hfull
      simp only [without, unmarshalFields]
      exact ih sv hfull
    | fail e => simp [unmarshalFields] at hfull

theorem fieldMatches_local (xmlns name : String) (start : Name)
    (h : fieldMatches xmlns name start = true) : start.Local = name := by
  unfold fieldMatches at h
  simp only [Bool.and_eq_true, beq_iff_eq] at h
  exact h.2.symm

theorem unmarshalString_ok {σ : Type} (cs : List Node) (set : String → σ) (x : σ)
    (h : unmarshalString cs set = .ok x) : ∃ v, x = set v := by
  unfold unmarshalString at h
  cases hc : charData cs with
  | error e => simp [hc] at h
  | ok data => simp only [hc, Except.ok.injEq] at h; exact ⟨data, h.symm⟩

theorem unmarshalNumber_ok {σ ν : Type} (parse : String → Except Error ν) (cs : List Node)
    (set : ν → σ) (x : σ) (h : unmarshalNumber parse cs set = .ok x) : ∃ v, x = set v := by
  unfold unmarshalNumber at h
  cases hc : charData cs with
  | error e => simp [hc] at h
  | ok data =>
    simp only [hc] at h
    cases hp : parse data with
    | error e => simp [hp] at h
    | ok v => simp only [hp, Except.ok.injEq] at h; exact ⟨v, h.symm⟩

theorem unmarshalString_comp {σ : Type} (cs : List Node) (set : String → σ) (g : σ → σ) :
    some (unmarshalString cs fun v => g (set v)) =
      mapOk g (some (unmarshalString cs set)) := by
  unfold unmarshalString
  cases charData cs <;> rfl

theorem unmarshalNumber_comp {σ ν : Type} (parse : String → Except Error ν) (cs : List Node)
    (set : ν → σ) (g : σ → σ) :
    some (unmarshalNumber parse cs fun v => g (set v)) =
      mapOk g (some (unmarshalNumber parse cs set)) := by
  unfold unmarshalNumber
  cases charData cs with
  | error e => rfl
  | ok data =>
    cases hp : parse data with
    | error e => simp [hp, mapOk]
    | ok v => simp [hp, mapOk]

theorem Do_of_answer (W : World) (s : Session) (tr : List Event) (request : Request)
    (r : Response) (h : answer W s tr request = .ok r) :
    ∃ s', s'.url = s.url ∧ s'.User = s.User ∧ s'.Password = s.Password ∧
      s'.client.Jar = (if r.Cookies.isEmpty then s.client.Jar
        else s.client.Jar ++ [(request.URL, r.Cookies)]) ∧
      Do W s tr request =
        (.ok r, s', tr ++ [Event.send request (W.jarCookies s.client.Jar request.URL)]) := by
  unfold answer at h
  unfold Do
  simp only [h]
  by_cases hc : r.Cookies.isEmpty = true
  · exact ⟨s, rfl, rfl, rfl, by simp [hc], by simp [hc]⟩
  · exact ⟨{ s with client := { s.client with Jar := s.client.Jar ++ [(request.URL, r.Cookies)] } },
      rfl, rfl, rfl, by simp [hc], by simp [hc]⟩

theorem Do_of_error (W : World) (s : Session) (tr : List Event) (request : Request)
    (e : Error) (h : answer W s tr request = .error e) :
    Do W s tr request =
      (.error e, s, tr ++ [Event.send request (W.jarCookies s.client.Jar request.URL)]) := by
  unfold answer at h
  unfold Do
  simp only [h]

end Hmc

/-! ### The cases of `doLogon` -/

namespace Hmc

theorem Execute_logintemplate (s : Session) :
    Execute logintemplate s =
      .ok (bodyHead ++ s.User ++ bodyMiddle ++ s.Password ++ bodyTail) := by
  have h1 : ∀ a b c : String, a ++ b ++ c = a ++ (b ++ c) := String.append_assoc
  simp [Execute, logintemplate, bodyHead, bodyMiddle, bodyTail, h1]

theorem doLogon_rejected (W : World) (s : Session) (tr : List Event) (e : Error)
    (hreq : W.newRequestErr "PUT" (authurl s) = some e) :
    (doLogon W s tr).outcome = .panic nilDereference ∧
    (doLogon W s tr).trace = tr ++ [Event.newRequest "PUT" (authurl s) (loginRequest W s).Body] ∧
    (doLogon W s tr).session = s := by
  have hurl : s.url ++ "/rest/api/web/Logon" = authurl s := rfl
  unfold doLogon
  simp only [Execute_logintemplate, hurl, NewRequest, hreq]
  simp [loginRequest]

theorem doLogon_transport (W : World) (s : Session) (tr : List Event) (e : Error)
    (hreq : W.newRequestErr "PUT" (authurl s) = none)
    (hans : answer W s (tr ++ [Event.newRequest "PUT" (authurl s) (loginRequest W s).Body])
      (loginRequest W s) = .error e) :
    (doLogon W s tr).outcome = .fatal [.err e] ∧
    (doLogon W s tr).trace = tr ++ [Event.newRequest "PUT" (authurl s) (loginRequest W s).Body,
      Event.send (loginRequest W s) (W.jarCookies s.client.Jar (W.parseURL (authurl s)))] ∧
    (doLogon W s tr).session = s := by
  have hDo := Do_of_error W s _ _ e hans
  have hurl : s.url ++ "/rest/api/web/Logon" = authurl s := rfl
  have hset : (((⟨"PUT", W.parseURL (authurl s), [],
      some (bodyHead ++ s.User ++ bodyMiddle ++ s.Password ++ bodyTail)⟩ : Request).setHeader
      "Content-Type" "application/vnd.ibm.powervm.web+xml; type=LogonRequest").setHeader
      "Accept" "application/vnd.ibm.powervm.web+xml; type=LogonResponse").setHeader
      "X-Audit-Memento" "hmctest" = loginRequest W s := by
    simp [Request.setHeader, Header.Set, loginRequest]
  unfold doLogon
  simp only [Execute_logintemplate, hurl, NewRequest, hreq, hset]
  simp only [loginRequest] at hDo ⊢
  simp only [hDo]
  simp

theorem doLogon_answered (W : World) (s : Session) (tr : List Event) (r : Response)
    (hreq : W.newRequestErr "PUT" (authurl s) = none)
    (hans : answer W s (tr ++ [Event.newRequest "PUT" (authurl s) (loginRequest W s).Body])
      (loginRequest W s) = .ok r) :
    (doLogon W s tr).outcome =
      (if r.StatusCode = 200 then .returned ()
        else .fatalf "Error status code: %d" [.int r.StatusCode]) ∧
    (doLogon W s tr).trace = tr ++ [Event.newRequest "PUT" (authurl s) (loginRequest W s).Body,
      Event.send (loginRequest W s) (W.jarCookies s.client.Jar (W.parseURL (authurl s)))] ++
      (if r.StatusCode = 200 then [Event.close] else []) ∧
    (doLogon W s tr).session.url = s.url ∧
    (doLogon W s tr).session.client.Jar =
      (if r.Cookies.isEmpty then s.client.Jar else s.client.Jar ++ [(W.parseURL (authurl s), r.Cookies)]) := by
  obtain ⟨s', h1, -, -, h4, hDo⟩ := Do_of_answer W s _ _ r hans
  have hurl : s.url ++ "/rest/api/web/Logon" = authurl s := rfl
  have hset : (((⟨"PUT", W.parseURL (authurl s), [],
      some (bodyHead ++ s.User ++ bodyMiddle ++ s.Password ++ bodyTail)⟩ : Request).setHeader
      "Content-Type" "application/vnd.ibm.powervm.web+xml; type=LogonRequest").setHeader
      "Accept" "application/vnd.ibm.powervm.web+xml; type=LogonResponse").setHeader
      "X-Audit-Memento" "hmctest" = loginRequest W s := by
    simp [Request.setHeader, Header.Set, loginRequest]
  unfold doLogon
  simp only [Execute_logintemplate, hurl, NewRequest, hreq, hset]
  simp only [loginRequest] at hDo h4 ⊢
  simp only [hDo]
  by_cases h200 : r.StatusCode = 200
  · simp [h200, h1, h4]
  · simp [h200, h1, h4]

end Hmc

/-! ### The loops yield the records in document order -/

namespace HmcSspAddLu
open Hmc

theorem loops_eq_ssp (feed : Feed) (st : List Event × List String) :
    searchSSP.loops feed st =
      (st.1 ++ feed.records.map row, st.2 ++ feed.records.map fun ssp => ssp.UUID) := by
  unfold searchSSP.loops Feed.records
  rw [foldl_pair_append
    (fun entry : Entry => (entry.Contents.flatMap fun c => c.SharedStoragePools).map row)
    (fun entry : Entry => (entry.Contents.flatMap fun c => c.SharedStoragePools).map
      fun ssp => ssp.UUID)]
  · simp [List.map_flatMap, List.flatMap_map]
  · intro st entry
    rw [foldl_pair_append (fun c : Content => c.SharedStoragePools.map row)
      (fun c : Content => c.SharedStoragePools.map fun ssp => ssp.UUID)]
    · simp [List.map_flatMap]
    · intro st c
      rw [foldl_pair_append (fun ssp : SharedStoragePool => [row ssp])
        (fun ssp : SharedStoragePool => [ssp.UUID])]
      · simp [flatMap_single]
      · intro st x; rfl

theorem records_length_ssp (feed : Feed) : feed.records.length = feed.count := by
  unfold Feed.records Feed.count
  rw [length_flatMap_sum]
  congr 1
  apply List.map_congr_left
  intro entry _
  rw [length_flatMap_sum]

end HmcSspAddLu

namespace HmcLparList
open Hmc

theorem loops_eq_lpar (feed : Feed) (tr : List Event) :
    getManaged.loops feed tr = tr ++ feed.records.map row := by
  unfold getManaged.loops Feed.records
  rw [foldl_append (fun entry : Entry => (entry.Contents.flatMap fun c => c.Lpar).map row)]
  · simp [List.map_flatMap]
  · intro st entry
    rw [foldl_append (fun c : Content => c.Lpar.map row)]
    · simp [List.map_flatMap]
    · intro st c
      rw [foldl_append (fun lpar : LogicalPartition => [row lpar])]
      · simp [flatMap_single]
      · intro st x; rfl

theorem records_length_lpar (feed : Feed) : feed.records.length = feed.count := by
  unfold Feed.records Feed.count
  rw [length_flatMap_sum]
  congr 1
  apply List.map_congr_left
  intro entry _
  rw [length_flatMap_sum]

end HmcLparList

namespace Hmctest
open Hmc

theorem loops_eq_hmctest (feed : Feed) (tr : List Event) :
    getManaged.loops feed tr = tr ++ feed.records.map row := by
  unfold getManaged.loops Feed.records
  rw [foldl_append (fun entry : Entry => (entry.Contents.flatMap fun c => c.Lpar).map row)]
  · simp [List.map_flatMap]
  · intro st entry
    rw [foldl_append (fun c : Content => c.Lpar.map row)]
    · simp [List.map_flatMap]
    · intro st c
      rw [foldl_append (fun lpar : LogicalPartition => [row lpar])]
      · simp [flatMap_single]
      · intro st x; rfl

theorem records_length_hmctest (feed : Feed) : feed.records.length = feed.count := by
  unfold Feed.records Feed.count
  rw [length_flatMap_sum]
  congr 1
  apply List.map_congr_left
  intro entry _
  rw [length_flatMap_sum]

end Hmctest

/-! ### The cases of `searchSSP` -/

namespace HmcSspAddLu
open Hmc

theorem searchSSP_rejected (W : World) (s : Session) (tr : List Event) (name : String) (e : Error)
    (hreq : W.newRequestErr "GET" (sspurl s name) = some e) :
    (searchSSP W s tr name).outcome = .panic nilDereference ∧
    (searchSSP W s tr name).trace = tr ++ [Event.newRequest "GET" (sspurl s name) none] := by
  have hurl : s.url ++ "/rest/api/uom/SharedStoragePool/search/(StoragePoolName==" ++ name ++ ")" = sspurl s name := rfl
  unfold searchSSP
  simp [hurl, NewRequest, hreq]

theorem searchSSP_transport (W : World) (s : Session) (tr : List Event) (name : String) (e : Error)
    (hreq : W.newRequestErr "GET" (sspurl s name) = none)
    (hans : answer W s (tr ++ [Event.newRequest "GET" (sspurl s name) none]) (getRequest W (sspurl s name)) =
      .error e) :
    (searchSSP W s tr name).outcome = .fatal [.err e] ∧
    (searchSSP W s tr name).trace = tr ++ [Event.newRequest "GET" (sspurl s name) none,
        Event.send (getRequest W (sspurl s name)) (W.jarCookies s.client.Jar (W.parseURL (sspurl s name)))] := by
  have hDo := Do_of_error W s _ _ e hans
  have hNR : NewRequest W "GET" (sspurl s name) none = some ⟨"GET", W.parseURL (sspurl s name), [], none⟩ := by
    simp [NewRequest, hreq]
  have hset : (⟨"GET", W.parseURL (sspurl s name), [], none⟩ : Request).setHeader "Accept" acceptAny =
      getRequest W (sspurl s name) := rfl
  have hurl : s.url ++ "/rest/api/uom/SharedStoragePool/search/(StoragePoolName==" ++ name ++ ")" = sspurl s name := rfl
  unfold searchSSP
  simp only [hurl, hNR, hset, hDo]
  simp [getRequest]

theorem searchSSP_unread (W : World) (s : Session) (tr : List Event) (name : String) (r : Response)
    (e : Error)
    (hreq : W.newRequestErr "GET" (sspurl s name) = none)
    (hans : answer W s (tr ++ [Event.newRequest "GET" (sspurl s name) none]) (getRequest W (sspurl s name)) = .ok r)
    (hread : r.BodyErr = some e) :
    (searchSSP W s tr name).outcome = .fatal [.err e] ∧
    (searchSSP W s tr name).trace = tr ++ [Event.newRequest "GET" (sspurl s name) none,
        Event.send (getRequest W (sspurl s name)) (W.jarCookies s.client.Jar (W.parseURL (sspurl s name))), Event.readAll] := by
  obtain ⟨s', -, -, -, -, hDo⟩ := Do_of_answer W s _ _ r hans
  have hNR : NewRequest W "GET" (sspurl s name) none = some ⟨"GET", W.parseURL (sspurl s name), [], none⟩ := by
    simp [NewRequest, hreq]
  have hset : (⟨"GET", W.parseURL (sspurl s name), [], none⟩ : Request).setHeader "Accept" acceptAny =
      getRequest W (sspurl s name) := rfl
  have hurl : s.url ++ "/rest/api/uom/SharedStoragePool/search/(StoragePoolName==" ++ name ++ ")" = sspurl s name := rfl
  unfold searchSSP
  simp only [hurl, hNR, hset, hDo, ReadAll, hread]
  simp [getRequest]

theorem searchSSP_status (W : World) (s : Session) (tr : List Event) (name : String) (r : Response)
    (hreq : W.newRequestErr "GET" (sspurl s name) = none)
    (hans : answer W s (tr ++ [Event.newRequest "GET" (sspurl s name) none]) (getRequest W (sspurl s name)) = .ok r)
    (hread : r.BodyErr = none) (hstatus : r.StatusCode ≠ 200) :
    (searchSSP W s tr name).outcome = .fatalf "Error getting SSP informations. status code: %d" [.int r.StatusCode] ∧
    (searchSSP W s tr name).trace = tr ++ [Event.newRequest "GET" (sspurl s name) none,
        Event.send (getRequest W (sspurl s name)) (W.jarCookies s.client.Jar (W.parseURL (sspurl s name))), Event.readAll] := by
  obtain ⟨s', -, -, -, -, hDo⟩ := Do_of_answer W s _ _ r hans
  have hNR : NewRequest W "GET" (sspurl s name) none = some ⟨"GET", W.parseURL (sspurl s name), [], none⟩ := by
    simp [NewRequest, hreq]
  have hset : (⟨"GET", W.parseURL (sspurl s name), [], none⟩ : Request).setHeader "Accept" acceptAny =
      getRequest W (sspurl s name) := rfl
  have hurl : s.url ++ "/rest/api/uom/SharedStoragePool/search/(StoragePoolName==" ++ name ++ ")" = sspurl s name := rfl
  unfold searchSSP
  simp only [hurl, hNR, hset, hDo, ReadAll, hread]
  simp [getRequest, hstatus]

theorem searchSSP_undecoded (W : World) (s : Session) (tr : List Event) (name : String) (r : Response)
    (feed : Feed) (e : Error)
    (hreq : W.newRequestErr "GET" (sspurl s name) = none)
    (hans : answer W s (tr ++ [Event.newRequest "GET" (sspurl s name) none]) (getRequest W (sspurl s name)) = .ok r)
    (hread : r.BodyErr = none) (hstatus : r.StatusCode = 200)
    (hdec : Unmarshal (Feed.unmarshal W) (W.tokens r.Body) Feed.zero = (feed, some e)) :
    (searchSSP W s tr name).outcome = .fatal [.err e] ∧
    (searchSSP W s tr name).trace = tr ++ [Event.newRequest "GET" (sspurl s name) none,
        Event.send (getRequest W (sspurl s name)) (W.jarCookies s.client.Jar (W.parseURL (sspurl s name))), Event.readAll] := by
  obtain ⟨s', -, -, -, -, hDo⟩ := Do_of_answer W s _ _ r hans
  have hNR : NewRequest W "GET" (sspurl s name) none = some ⟨"GET", W.parseURL (sspurl s name), [], none⟩ := by
    simp [NewRequest, hreq]
  have hset : (⟨"GET", W.parseURL (sspurl s name), [], none⟩ : Request).setHeader "Accept" acceptAny =
      getRequest W (sspurl s name) := rfl
  have hurl : s.url ++ "/rest/api/uom/SharedStoragePool/search/(StoragePoolName==" ++ name ++ ")" = sspurl s name := rfl
  unfold searchSSP
  simp only [hurl, hNR, hset, hDo, ReadAll, hread, hstatus, hdec]
  simp [getRequest]

theorem searchSSP_ok (W : World) (s : Session) (tr : List Event) (name : String) (r : Response)
    (feed : Feed)
    (hreq : W.newRequestErr "GET" (sspurl s name) = none)
    (hans : answer W s (tr ++ [Event.newRequest "GET" (sspurl s name) none]) (getRequest W (sspurl s name)) = .ok r)
    (hread : r.BodyErr = none) (hstatus : r.StatusCode = 200)
    (hdec : Unmarshal (Feed.unmarshal W) (W.tokens r.Body) Feed.zero = (feed, none)) :
    (searchSSP W s tr name).outcome = .returned (feed.records.map fun ssp => ssp.UUID) ∧
    (searchSSP W s tr name).trace = tr ++ [Event.newRequest "GET" (sspurl s name) none,
        Event.send (getRequest W (sspurl s name)) (W.jarCookies s.client.Jar (W.parseURL (sspurl s name))), Event.readAll, heading] ++ feed.records.map row ++ [Event.close] := by
  obtain ⟨s', -, -, -, -, hDo⟩ := Do_of_answer W s _ _ r hans
  have hNR : NewRequest W "GET" (sspurl s name) none = some ⟨"GET", W.parseURL (sspurl s name), [], none⟩ := by
    simp [NewRequest, hreq]
  have hset : (⟨"GET", W.parseURL (sspurl s name), [], none⟩ : Request).setHeader "Accept" acceptAny =
      getRequest W (sspurl s name) := rfl
  have hurl : s.url ++ "/rest/api/uom/SharedStoragePool/search/(StoragePoolName==" ++ name ++ ")" = sspurl s name := rfl
  unfold searchSSP
  simp only [hurl, hNR, hset, hDo, ReadAll, hread, hstatus, hdec, loops_eq_ssp]
  simp [heading, getRequest]

end HmcSspAddLu

/-! ### The cases of `getManaged` in `hmc_lpar_list_test.go` -/

namespace HmcLparList
open Hmc

theorem getManaged_rejected_lpar (W : World) (s : Session) (tr : List Event) (e : Error)
    (hreq : W.newRequestErr "GET" (mgdurl s) = some e) :
    (getManaged W s tr).outcome = .panic nilDereference ∧
    (getManaged W s tr).trace = tr ++ [Event.newRequest "GET" (mgdurl s) none] := by
  have hurl : s.url ++ "/rest/api/uom/LogicalPartition" = mgdurl s := rfl
  unfold getManaged
  simp [hurl, NewRequest, hreq]

theorem getManaged_transport (W : World) (s : Session) (tr : List Event) (e : Error)
    (hreq : W.newRequestErr "GET" (mgdurl s) = none)
    (hans : answer W s (tr ++ [Event.newRequest "GET" (mgdurl s) none]) (getRequest W (mgdurl s)) =
      .error e) :
    (getManaged W s tr).outcome = .fatal [.err e] ∧
    (getManaged W s tr).trace = tr ++ [Event.newRequest "GET" (mgdurl s) none,
        Event.send (getRequest W (mgdurl s)) (W.jarCookies s.client.Jar (W.parseURL (mgdurl s)))] := by
  have hDo := Do_of_error W s _ _ e hans
  have hNR : NewRequest W "GET" (mgdurl s) none = some ⟨"GET", W.parseURL (mgdurl s), [], none⟩ := by
    simp [NewRequest, hreq]
  have hset : (⟨"GET", W.parseURL (mgdurl s), [], none⟩ : Request).setHeader "Accept" acceptAny =
      getRequest W (mgdurl s) := rfl
  have hurl : s.url ++ "/rest/api/uom/LogicalPartition" = mgdurl s := rfl
  unfold getManaged
  simp only [hurl, hNR, hset, hDo]
  simp [getRequest]

theorem getManaged_unread (W : World) (s : Session) (tr : List Event) (r : Response)
    (e : Error)
    (hreq : W.newRequestErr "GET" (mgdurl s) = none)
    (hans : answer W s (tr ++ [Event.newRequest "GET" (mgdurl s) none]) (getRequest W (mgdurl s)) = .ok r)
    (hread : r.BodyErr = some e) :
    (getManaged W s tr).outcome = .fatal [.err e] ∧
    (getManaged W s tr).trace = tr ++ [Event.newRequest "GET" (mgdurl s) none,
        Event.send (getRequest W (mgdurl s)) (W.jarCookies s.client.Jar (W.parseURL (mgdurl s))), Event.readAll] := by
  obtain ⟨s', -, -, -, -, hDo⟩ := Do_of_answer W s _ _ r hans
  have hNR : NewRequest W "GET" (mgdurl s) none = some ⟨"GET", W.parseURL (mgdurl s), [], none⟩ := by
    simp [NewRequest, hreq]
  have hset : (⟨"GET", W.parseURL (mgdurl s), [], none⟩ : Request).setHeader "Accept" acceptAny =
      getRequest W (mgdurl s) := rfl
  have hurl : s.url ++ "/rest/api/uom/LogicalPartition" = mgdurl s := rfl
  unfold getManaged
  simp only [hurl, hNR, hset, hDo, ReadAll, hread]
  simp [getRequest]

theorem getManaged_status (W : World) (s : Session) (tr : List Event) (r : Response)
    (hreq : W.newRequestErr "GET" (mgdurl s) = none)
    (hans : answer W s (tr ++ [Event.newRequest "GET" (mgdurl s) none]) (getRequest W (mgdurl s)) = .ok r)
    (hread : r.BodyErr = none) (hstatus : r.StatusCode ≠ 200) :
    (getManaged W s tr).outcome = .fatalf "Error getting LPAR informations. status code: %d" [.int r.StatusCode] ∧
    (getManaged W s tr).trace = tr ++ [Event.newRequest "GET" (mgdurl s) none,
        Event.send (getRequest W (mgdurl s)) (W.jarCookies s.client.Jar (W.parseURL (mgdurl s))), Event.readAll] := by
  obtain ⟨s', -, -, -, -, hDo⟩ := Do_of_answer W s _ _ r hans
  have hNR : NewRequest W "GET" (mgdurl s) none = some ⟨"GET", W.parseURL (mgdurl s), [], none⟩ := by
    simp [NewRequest, hreq]
  have hset : (⟨"GET", W.parseURL (mgdurl s), [], none⟩ : Request).setHeader "Accept" acceptAny =
      getRequest W (mgdurl s) := rfl
  have hurl : s.url ++ "/rest/api/uom/LogicalPartition" = mgdurl s := rfl
  unfold getManaged
  simp only [hurl, hNR, hset, hDo, ReadAll, hread]
  simp [getRequest, hstatus]

theorem getManaged_undecoded (W : World) (s : Session) (tr : List Event) (r : Response)
    (feed : Feed) (e : Error)
    (hreq : W.newRequestErr "GET" (mgdurl s) = none)
    (hans : answer W s (tr ++ [Event.newRequest "GET" (mgdurl s) none]) (getRequest W (mgdurl s)) = .ok r)
    (hread : r.BodyErr = none) (hstatus : r.StatusCode = 200)
    (hdec : Unmarshal (Feed.unmarshal W) (W.tokens r.Body) Feed.zero = (feed, some e)) :
    (getManaged W s tr).outcome = .fatal [.err e] ∧
    (getManaged W s tr).trace = tr ++ [Event.newRequest "GET" (mgdurl s) none,
        Event.send (getRequest W (mgdurl s)) (W.jarCookies s.client.Jar (W.parseURL (mgdurl s))), Event.readAll] := by
  obtain ⟨s', -, -, -, -, hDo⟩ := Do_of_answer W s _ _ r hans
  have hNR : NewRequest W "GET" (mgdurl s) none = some ⟨"GET", W.parseURL (mgdurl s), [], none⟩ := by
    simp [NewRequest, hreq]
  have hset : (⟨"GET", W.parseURL (mgdurl s), [], none⟩ : Request).setHeader "Accept" acceptAny =
      getRequest W (mgdurl s) := rfl
  have hurl : s.url ++ "/rest/api/uom/LogicalPartition" = mgdurl s := rfl
  unfold getManaged
  simp only [hurl, hNR, hset, hDo, ReadAll, hread, hstatus, hdec]
  simp [getRequest]

theorem getManaged_ok (W : World) (s : Session) (tr : List Event) (r : Response)
    (feed : Feed)
    (hreq : W.newRequestErr "GET" (mgdurl s) = none)
    (hans : answer W s (tr ++ [Event.newRequest "GET" (mgdurl s) none]) (getRequest W (mgdurl s)) = .ok r)
    (hread : r.BodyErr = none) (hstatus : r.StatusCode = 200)
    (hdec : Unmarshal (Feed.unmarshal W) (W.tokens r.Body) Feed.zero = (feed, none)) :
    (getManaged W s tr).outcome = .returned () ∧
    (getManaged W s tr).trace = tr ++ [Event.newRequest "GET" (mgdurl s) none,
        Event.send (getRequest W (mgdurl s)) (W.jarCookies s.client.Jar (W.parseURL (mgdurl s))), Event.readAll, heading] ++ feed.records.map row ++ [Event.close] := by
  obtain ⟨s', -, -, -, -, hDo⟩ := Do_of_answer W s _ _ r hans
  have hNR : NewRequest W "GET" (mgdurl s) none = some ⟨"GET", W.parseURL (mgdurl s), [], none⟩ := by
    simp [NewRequest, hreq]
  have hset : (⟨"GET", W.parseURL (mgdurl s), [], none⟩ : Request).setHeader "Accept" acceptAny =
      getRequest W (mgdurl s) := rfl
  have hurl : s.url ++ "/rest/api/uom/LogicalPartition" = mgdurl s := rfl
  unfold getManaged
  simp only [hurl, hNR, hset, hDo, ReadAll, hread, hstatus, hdec, loops_eq_lpar]
  simp [heading, getRequest]

end HmcLparList

/-! ### The cases of `getManaged` in `hmctest.go` -/

namespace Hmctest
open Hmc

theorem getManaged_rejected_hmctest (W : World) (s : Session) (tr : List Event) (e : Error)
    (hreq : W.newRequestErr "GET" (mgdurl s) = some e) :
    (getManaged W s tr).outcome = .panic nilDereference ∧
    (getManaged W s tr).trace = tr ++ [Event.newRequest "GET" (mgdurl s) none] := by
  have hurl : s.url ++ "/rest/api/uom/LogicalPartition" = mgdurl s := rfl
  unfold getManaged
  simp [hurl, NewRequest, hreq]

theorem getManaged_read (W : World) (s : Session) (tr : List Event) (r : Response)
    (hreq : W.newRequestErr "GET" (mgdurl s) = none)
    (hans : answer W s (tr ++ [Event.newRequest "GET" (mgdurl s) none]) (getRequest W (mgdurl s)) =
      .ok r)
    (hread : r.BodyErr = none) :
    (getManaged W s tr).outcome = .returned () ∧
    (getManaged W s tr).trace = tr ++ [Event.newRequest "GET" (mgdurl s) none,
        Event.send (getRequest W (mgdurl s)) (W.jarCookies s.client.Jar (W.parseURL (mgdurl s))),
        Event.readAll] ++ report s r ++
      complaint (Unmarshal (Feed.unmarshal W) (W.tokens r.Body) Feed.zero).2 ++
      (Unmarshal (Feed.unmarshal W) (W.tokens r.Body) Feed.zero).1.records.map row ++
      [Event.close] := by
  obtain ⟨s', -, -, -, -, hDo⟩ := Do_of_answer W s _ _ r hans
  have hNR : NewRequest W "GET" (mgdurl s) none = some ⟨"GET", W.parseURL (mgdurl s), [], none⟩ := by
    simp [NewRequest, hreq]
  have hset : (⟨"GET", W.parseURL (mgdurl s), [], none⟩ : Request).setHeader "Accept" acceptAny =
      getRequest W (mgdurl s) := rfl
  have hurl : s.url ++ "/rest/api/uom/LogicalPartition" = mgdurl s := rfl
  have hhdr : ∀ st : List Event, r.Header.foldl (fun tr kv =>
      tr ++ [Event.println [.str "   ", .str kv.1, .str ":", .strs kv.2]]) st =
      st ++ r.Header.map fun kv => Event.println [.str "   ", .str kv.1, .str ":", .strs kv.2] := by
    intro st
    rw [foldl_append (fun kv : String × List String =>
      [Event.println [.str "   ", .str kv.1, .str ":", .strs kv.2]])]
    · simp [flatMap_single]
    · intro st x; rfl
  unfold getManaged
  simp only [hurl, hNR, hset, hDo, ReadAll, hread, hhdr, loops_eq_hmctest]
  cases hU : (Unmarshal (Feed.unmarshal W) (W.tokens r.Body) Feed.zero).2 with
  | none => simp [report, complaint, getRequest, hU]
  | some e => simp [report, complaint, getRequest, hU]

end Hmctest

/-! ### Feeds without records -/

namespace HmcSspAddLu
open Hmc

theorem Content_unmarshalFields_empty_ssp (W : World) (cs : List Node) (sv : Content)
    (hclean : Skip cs = none) (hempty : emptyContent "SharedStoragePool" cs = true) :
    unmarshalFields (Content.unmarshalPath W) cs sv = (sv, none) := by
  obtain ⟨sv', h1, h2⟩ :=
    unmarshalFields_inv (Content.unmarshalPath W) (fun x => x = sv) cs hclean
      (by
        intro start cs' x hmem _ _
        left
        have hm := List.all_eq_true.mp hempty (start, cs') hmem
        simp only [Bool.not_eq_true'] at hm
        simp [Content.unmarshalPath, hm]) sv rfl
  rw [h1, h2]

theorem Entry_unmarshalFields_empty_ssp (W : World) (cs : List Node) (sv : Entry)
    (hclean : Skip cs = none) (hempty : emptyEntry "SharedStoragePool" cs = true)
    (hP : ∀ c ∈ sv.Contents, c.SharedStoragePools = []) :
    ∃ sv', unmarshalFields (Entry.unmarshalPath W) cs sv = (sv', none) ∧
      ∀ c ∈ sv'.Contents, c.SharedStoragePools = [] := by
  apply unmarshalFields_inv (Entry.unmarshalPath W) (fun x => ∀ c ∈ x.Contents, c.SharedStoragePools = [])
    cs hclean ?_ sv hP
  intro start cs' x hmem hcl hx
  have hm := List.all_eq_true.mp hempty (start, cs') hmem
  simp only [Bool.or_eq_true, Bool.not_eq_true'] at hm
  by_cases hf : fieldMatches "" "content" start = true
  · right
    have hE : emptyContent "SharedStoragePool" cs' = true := by
      rcases hm with h | h
      · rw [h] at hf; exact absurd hf (by simp)
      · exact h
    refine ⟨{ x with Contents := x.Contents ++ [{ Content.zero with XMLName := start }] }, ?_, ?_⟩
    · simp [Entry.unmarshalPath, hf, Content.unmarshal, unmarshalStruct,
        fieldMatches_checkXMLName _ _ _ hf, Content_unmarshalFields_empty_ssp W cs' _ hcl hE,
        unmarshalSlice, sliceElem]
    · intro c hc
      simp only [List.mem_append, List.mem_singleton] at hc
      rcases hc with hc | hc
      · exact hx c hc
      · subst hc; rfl
  · left
    simp [Entry.unmarshalPath, hf]

theorem Feed_unmarshalFields_empty_ssp (W : World) (cs : List Node) (sv : Feed)
    (hclean : Skip cs = none) (hempty : emptyFeed "SharedStoragePool" cs = true)
    (hP : ∀ e ∈ sv.Entries, ∀ c ∈ e.Contents, c.SharedStoragePools = []) :
    ∃ sv', unmarshalFields (Feed.unmarshalPath W) cs sv = (sv', none) ∧
      ∀ e ∈ sv'.Entries, ∀ c ∈ e.Contents, c.SharedStoragePools = [] := by
  apply unmarshalFields_inv (Feed.unmarshalPath W)
    (fun x => ∀ e ∈ x.Entries, ∀ c ∈ e.Contents, c.SharedStoragePools = []) cs hclean ?_ sv hP
  intro start cs' x hmem hcl hx
  have hm := List.all_eq_true.mp hempty (start, cs') hmem
  simp only [Bool.or_eq_true, Bool.not_eq_true'] at hm
  by_cases hf : fieldMatches "" "entry" start = true
  · right
    have hE : emptyEntry "SharedStoragePool" cs' = true := by
      rcases hm with h | h
      · rw [h] at hf; exact absurd hf (by simp)
      · exact h
    obtain ⟨e', he1, he2⟩ := Entry_unmarshalFields_empty_ssp W cs' { Entry.zero with XMLName := start }
      hcl hE (by intro c hc; simp [Entry.zero] at hc)
    refine ⟨{ x with Entries := x.Entries ++ [e'] }, ?_, ?_⟩
    · simp [Feed.unmarshalPath, hf, Entry.unmarshal, unmarshalStruct,
        fieldMatches_checkXMLName _ _ _ hf, he1, unmarshalSlice, sliceElem]
    · intro e he
      simp only [List.mem_append, List.mem_singleton] at he
      rcases he with he | he
      · exact hx e he
      · subst he; exact he2
  · left
    simp [Feed.unmarshalPath, hf]

theorem decode_emptyFeed_ssp (W : World) (pre : List Node) (root : Hmc.Name) (cs post : List Node)
    (hpre : pre.all Node.passedOver = true) (hroot : root.Local = "feed")
    (hclean : Skip cs = none) (hempty : emptyFeed "SharedStoragePool" cs = true) :
    ∃ feed, Unmarshal (Feed.unmarshal W) (pre ++ Node.element root cs :: post) Feed.zero =
      (feed, none) ∧ feed.records = [] := by
  obtain ⟨feed, h1, h2⟩ := Feed_unmarshalFields_empty_ssp W cs { Feed.zero with XMLName := root }
    hclean hempty (by intro e he; simp [Feed.zero] at he)
  refine ⟨feed, ?_, ?_⟩
  · rw [Unmarshal_root _ _ _ _ _ _ hpre]
    have hchk : checkXMLName "" "feed" root = none := by simp [checkXMLName, hroot]
    simp [Feed.unmarshal, unmarshalStruct, hchk, h1]
  · unfold Feed.records
    simp only [List.flatMap_eq_nil_iff]
    intro e he c hc
    exact h2 e he c hc

end HmcSspAddLu

namespace HmcLparList
open Hmc

theorem Content_unmarshalFields_empty_lpar (W : World) (cs : List Node) (sv : Content)
    (hclean : Skip cs = none) (hempty : emptyContent "LogicalPartition" cs = true) :
    unmarshalFields (Content.unmarshalPath W) cs sv = (sv, none) := by
  obtain ⟨sv', h1, h2⟩ :=
    unmarshalFields_inv (Content.unmarshalPath W) (fun x => x = sv) cs hclean
      (by
        intro start cs' x hmem _ _
        left
        have hm := List.all_eq_true.mp hempty (start, cs') hmem
        simp only [Bool.not_eq_true'] at hm
        simp [Content.unmarshalPath, hm]) sv rfl
  rw [h1, h2]

theorem Entry_unmarshalFields_empty_lpar (W : World) (cs : List Node) (sv : Entry)
    (hclean : Skip cs = none) (hempty : emptyEntry "LogicalPartition" cs = true)
    (hP : ∀ c ∈ sv.Contents, c.Lpar = []) :
    ∃ sv', unmarshalFields (Entry.unmarshalPath W) cs sv = (sv', none) ∧
      ∀ c ∈ sv'.Contents, c.Lpar = [] := by
  apply unmarshalFields_inv (Entry.unmarshalPath W) (fun x => ∀ c ∈ x.Contents, c.Lpar = [])
    cs hclean ?_ sv hP
  intro start cs' x hmem hcl hx
  have hm := List.all_eq_true.mp hempty (start, cs') hmem
  simp only [Bool.or_eq_true, Bool.not_eq_true'] at hm
  by_cases hf : fieldMatches "" "content" start = true
  · right
    have hE : emptyContent "LogicalPartition" cs' = true := by
      rcases hm with h | h
      · rw [h] at hf; exact absurd hf (by simp)
      · exact h
    refine ⟨{ x with Contents := x.Contents ++ [{ Content.zero with XMLName := start }] }, ?_, ?_⟩
    · simp [Entry.unmarshalPath, hf, Content.unmarshal, unmarshalStruct,
        fieldMatches_checkXMLName _ _ _ hf, Content_unmarshalFields_empty_lpar W cs' _ hcl hE,
        unmarshalSlice, sliceElem]
    · intro c hc
      simp only [List.mem_append, List.mem_singleton] at hc
      rcases hc with hc | hc
      · exact hx c hc
      · subst hc; rfl
  · left
    simp [Entry.unmarshalPath, hf]

theorem Feed_unmarshalFields_empty_lpar (W : World) (cs : List Node) (sv : Feed)
    (hclean : Skip cs = none) (hempty : emptyFeed "LogicalPartition" cs = true)
    (hP : ∀ e ∈ sv.Entries, ∀ c ∈ e.Contents, c.Lpar = []) :
    ∃ sv', unmarshalFields (Feed.unmarshalPath W) cs sv = (sv', none) ∧
      ∀ e ∈ sv'.Entries, ∀ c ∈ e.Contents, c.Lpar = [] := by
  apply unmarshalFields_inv (Feed.unmarshalPath W)
    (fun x => ∀ e ∈ x.Entries, ∀ c ∈ e.Contents, c.Lpar = []) cs hclean ?_ sv hP
  intro start cs' x hmem hcl hx
  have hm := List.all_eq_true.mp hempty (start, cs') hmem
  simp only [Bool.or_eq_true, Bool.not_eq_true'] at hm
  by_cases hf : fieldMatches "" "entry" start = true
  · right
    have hE : emptyEntry "LogicalPartition" cs' = true := by
      rcases hm with h | h
      · rw [h] at hf; exact absurd hf (by simp)
      · exact h
    obtain ⟨e', he1, he2⟩ := Entry_unmarshalFields_empty_lpar W cs' { Entry.zero with XMLName := start }
      hcl hE (by intro c hc; simp [Entry.zero] at hc)
    refine ⟨{ x with Entries := x.Entries ++ [e'] }, ?_, ?_⟩
    · simp [Feed.unmarshalPath, hf, Entry.unmarshal, unmarshalStruct,
        fieldMatches_checkXMLName _ _ _ hf, he1, unmarshalSlice, sliceElem]
    · intro e he
      simp only [List.mem_append, List.mem_singleton] at he
      rcases he with he | he
      · exact hx e he
      · subst he; exact he2
  · left
    simp [Feed.unmarshalPath, hf]

theorem decode_emptyFeed_lpar (W : World) (pre : List Node) (root : Hmc.Name) (cs post : List Node)
    (hpre : pre.all Node.passedOver = true) (hroot : root.Local = "feed")
    (hclean : Skip cs = none) (hempty : emptyFeed "LogicalPartition" cs = true) :
    ∃ feed, Unmarshal (Feed.unmarshal W) (pre ++ Node.element root cs :: post) Feed.zero =
      (feed, none) ∧ feed.records = [] := by
  obtain ⟨feed, h1, h2⟩ := Feed_unmarshalFields_empty_lpar W cs { Feed.zero with XMLName := root }
    hclean hempty (by intro e he; simp [Feed.zero] at he)
  refine ⟨feed, ?_, ?_⟩
  · rw [Unmarshal_root _ _ _ _ _ _ hpre]
    have hchk : checkXMLName "" "feed" root = none := by simp [checkXMLName, hroot]
    simp [Feed.unmarshal, unmarshalStruct, hchk, h1]
  · unfold Feed.records
    simp only [List.flatMap_eq_nil_iff]
    intro e he c hc
    exact h2 e he c hc

end HmcLparList

namespace Hmctest
open Hmc

theorem Content_unmarshalFields_empty_hmctest (W : World) (cs : List Node) (sv : Content)
    (hclean : Skip cs = none) (hempty : emptyContent "LogicalPartition" cs = true) :
    unmarshalFields (Content.unmarshalPath W) cs sv = (sv, none) := by
  obtain ⟨sv', h1, h2⟩ :=
    unmarshalFields_inv (Content.unmarshalPath W) (fun x => x = sv) cs hclean
      (by
        intro start cs' x hmem _ _
        left
        have hm := List.all_eq_true.mp hempty (start, cs') hmem
        simp only [Bool.not_eq_true'] at hm
        simp [Content.unmarshalPath, hm]) sv rfl
  rw [h1, h2]

theorem Entry_unmarshalFields_empty_hmctest (W : World) (cs : List Node) (sv : Entry)
    (hclean : Skip cs = none) (hempty : emptyEntry "LogicalPartition" cs = true)
    (hP : ∀ c ∈ sv.Contents, c.Lpar = []) :
    ∃ sv', unmarshalFields (Entry.unmarshalPath W) cs sv = (sv', none) ∧
      ∀ c ∈ sv'.Contents, c.Lpar = [] := by
  apply unmarshalFields_inv (Entry.unmarshalPath W) (fun x => ∀ c ∈ x.Contents, c.Lpar = [])
    cs hclean ?_ sv hP
  intro start cs' x hmem hcl hx
  have hm := List.all_eq_true.mp hempty (start, cs') hmem
  simp only [Bool.or_eq_true, Bool.not_eq_true'] at hm
  by_cases hf : fieldMatches "" "content" start = true
  · right
    have hE : emptyContent "LogicalPartition" cs' = true := by
      rcases hm with h | h
      · rw [h] at hf; exact absurd hf (by simp)
      · exact h
    refine ⟨{ x with Contents := x.Contents ++ [{ Content.zero with XMLName := start }] }, ?_, ?_⟩
    · simp [Entry.unmarshalPath, hf, Content.unmarshal, unmarshalStruct,
        fieldMatches_checkXMLName _ _ _ hf, Content_unmarshalFields_empty_hmctest W cs' _ hcl hE,
        unmarshalSlice, sliceElem]
    · intro c hc
      simp only [List.mem_append, List.mem_singleton] at hc
      rcases hc with hc | hc
      · exact hx c hc
      · subst hc; rfl
  · left
    simp [Entry.unmarshalPath, hf]

theorem Feed_unmarshalFields_empty_hmctest (W : World) (cs : List Node) (sv : Feed)
    (hclean : Skip cs = none) (hempty : emptyFeed "LogicalPartition" cs = true)
    (hP : ∀ e ∈ sv.Entries, ∀ c ∈ e.Contents, c.Lpar = []) :
    ∃ sv', unmarshalFields (Feed.unmarshalPath W) cs sv = (sv', none) ∧
      ∀ e ∈ sv'.Entries, ∀ c ∈ e.Contents, c.Lpar = [] := by
  apply unmarshalFields_inv (Feed.unmarshalPath W)
    (fun x => ∀ e ∈ x.Entries, ∀ c ∈ e.Contents, c.Lpar = []) cs hclean ?_ sv hP
  intro start cs' x hmem hcl hx
  have hm := List.all_eq_true.mp hempty (start, cs') hmem
  simp only [Bool.or_eq_true, Bool.not_eq_true'] at hm
  by_cases hf : fieldMatches "" "entry" start = true
  · right
    have hE : emptyEntry "LogicalPartition" cs' = true := by
      rcases hm with h | h
      · rw [h] at hf; exact absurd hf (by simp)
      · exact h
    obtain ⟨e', he1, he2⟩ := Entry_unmarshalFields_empty_hmctest W cs' { Entry.zero with XMLName := start }
      hcl hE (by intro c hc; simp [Entry.zero] at hc)
    refine ⟨{ x with Entries := x.Entries ++ [e'] }, ?_, ?_⟩
    · simp [Feed.unmarshalPath, hf, Entry.unmarshal, unmarshalStruct,
        fieldMatches_checkXMLName _ _ _ hf, he1, unmarshalSlice, sliceElem]
    · intro e he
      simp only [List.mem_append, List.mem_singleton] at he
      rcases he with he | he
      · exact hx e he
      · subst he; exact he2
  · left
    simp [Feed.unmarshalPath, hf]

theorem decode_emptyFeed_hmctest (W : World) (pre : List Node) (root : Hmc.Name) (cs post : List Node)
    (hpre : pre.all Node.passedOver = true) (hroot : root.Local = "feed")
    (hclean : Skip cs = none) (hempty : emptyFeed "LogicalPartition" cs = true) :
    ∃ feed, Unmarshal (Feed.unmarshal W) (pre ++ Node.element root cs :: post) Feed.zero =
      (feed, none) ∧ feed.records = [] := by
  obtain ⟨feed, h1, h2⟩ := Feed_unmarshalFields_empty_hmctest W cs { Feed.zero with XMLName := root }
    hclean hempty (by intro e he; simp [Feed.zero] at he)
  refine ⟨feed, ?_, ?_⟩
  · rw [Unmarshal_root _ _ _ _ _ _ hpre]
    have hchk : checkXMLName "" "feed" root = none := by simp [checkXMLName, hroot]
    simp [Feed.unmarshal, unmarshalStruct, hchk, h1]
  · unfold Feed.records
    simp only [List.flatMap_eq_nil_iff]
    intro e he c hc
    exact h2 e he c hc

end Hmctest

/-! ### Records with absent children -/

namespace HmcSspAddLu
open Hmc

theorem SharedStoragePool_unmarshalPath_absent (W : World) (absent : String → Bool)
    (start : Hmc.Name) (cs1 : List Node) (sv sv1 : SharedStoragePool)
    (hab : absent start.Local = true)
    (h : SharedStoragePool.unmarshalPath W start cs1 sv = some (.ok sv1)) :
    sv1.lacking absent = sv.lacking absent := by
  unfold SharedStoragePool.unmarshalPath at h
  split_ifs at h with h1 h2 h3 h4
  · obtain ⟨v, rfl⟩ := unmarshalString_ok _ _ _ (Option.some.inj h)
    rw [fieldMatches_local _ _ _ h1] at hab; simp [SharedStoragePool.lacking, hab]
  · obtain ⟨v, rfl⟩ := unmarshalString_ok _ _ _ (Option.some.inj h)
    rw [fieldMatches_local _ _ _ h2] at hab; simp [SharedStoragePool.lacking, hab]
  · obtain ⟨v, rfl⟩ := unmarshalNumber_ok _ _ _ _ (Option.some.inj h)
    rw [fieldMatches_local _ _ _ h3] at hab; simp [SharedStoragePool.lacking, hab]
  · obtain ⟨v, rfl⟩ := unmarshalNumber_ok _ _ _ _ (Option.some.inj h)
    rw [fieldMatches_local _ _ _ h4] at hab; simp [SharedStoragePool.lacking, hab]

theorem SharedStoragePool_unmarshalPath_present (W : World) (absent : String → Bool)
    (start : Hmc.Name) (cs1 : List Node) (sv : SharedStoragePool)
    (hab : absent start.Local = false) :
    SharedStoragePool.unmarshalPath W start cs1 (sv.lacking absent) =
      mapOk (SharedStoragePool.lacking absent) (SharedStoragePool.unmarshalPath W start cs1 sv) := by
  unfold SharedStoragePool.unmarshalPath
  split_ifs with h1 h2 h3 h4
  · rw [fieldMatches_local _ _ _ h1] at hab
    refine Eq.trans ?_ (unmarshalString_comp cs1 (fun v => { sv with Name := v })
      (SharedStoragePool.lacking absent))
    congr 2; funext v; simp [SharedStoragePool.lacking, hab]
  · rw [fieldMatches_local _ _ _ h2] at hab
    refine Eq.trans ?_ (unmarshalString_comp cs1 (fun v => { sv with UUID := v })
      (SharedStoragePool.lacking absent))
    congr 2; funext v; simp [SharedStoragePool.lacking, hab]
  · rw [fieldMatches_local _ _ _ h3] at hab
    refine Eq.trans ?_ (unmarshalNumber_comp W.parseFloat cs1 (fun v => { sv with Capacity := v })
      (SharedStoragePool.lacking absent))
    congr 2; funext v; simp [SharedStoragePool.lacking, hab]
  · rw [fieldMatches_local _ _ _ h4] at hab
    refine Eq.trans ?_ (unmarshalNumber_comp W.parseFloat cs1 (fun v => { sv with FreeSpace := v })
      (SharedStoragePool.lacking absent))
    congr 2; funext v; simp [SharedStoragePool.lacking, hab]
  · rfl

theorem SharedStoragePool_unmarshal_without (W : World) (absent : String → Bool)
    (start : Hmc.Name) (cs : List Node) (r : SharedStoragePool)
    (h : SharedStoragePool.unmarshal W start cs SharedStoragePool.zero = (r, none)) :
    SharedStoragePool.unmarshal W start (without absent cs) SharedStoragePool.zero =
      (r.lacking absent, none) := by
  unfold SharedStoragePool.unmarshal unmarshalStruct at h ⊢
  cases hc : checkXMLName uom "SharedStoragePool" start with
  | some e => simp [hc] at h
  | none =>
    simp only [hc] at h ⊢
    have := unmarshalFields_without (SharedStoragePool.unmarshalPath W)
      (SharedStoragePool.lacking absent) absent
      (fun a b c d => SharedStoragePool_unmarshalPath_absent W absent a b c d)
      (fun a b c => SharedStoragePool_unmarshalPath_present W absent a b c) cs _ r h
    simpa [SharedStoragePool.lacking, SharedStoragePool.zero] using this

end HmcSspAddLu

namespace HmcLparList
open Hmc

theorem LogicalPartition_unmarshalPath_absent (W : World) (absent : String → Bool)
    (start : Hmc.Name) (cs1 : List Node) (sv sv1 : LogicalPartition)
    (hab : absent start.Local = true)
    (h : LogicalPartition.unmarshalPath W start cs1 sv = some (.ok sv1)) :
    sv1.lacking absent = sv.lacking absent := by
  unfold LogicalPartition.unmarshalPath at h
  split_ifs at h with h1 h2 h3 h4 h5
  · obtain ⟨v, rfl⟩ := unmarshalString_ok _ _ _ (Option.some.inj h)
    rw [fieldMatches_local _ _ _ h1] at hab; simp [LogicalPartition.lacking, hab]
  · obtain ⟨v, rfl⟩ := unmarshalNumber_ok _ _ _ _ (Option.some.inj h)
    rw [fieldMatches_local _ _ _ h2] at hab; simp [LogicalPartition.lacking, hab]
  · obtain ⟨v, rfl⟩ := unmarshalString_ok _ _ _ (Option.some.inj h)
    rw [fieldMatches_local _ _ _ h3] at hab; simp [LogicalPartition.lacking, hab]
  · obtain ⟨v, rfl⟩ := unmarshalString_ok _ _ _ (Option.some.inj h)
    rw [fieldMatches_local _ _ _ h4] at hab; simp [LogicalPartition.lacking, hab]
  · obtain ⟨v, rfl⟩ := unmarshalString_ok _ _ _ (Option.some.inj h)
    rw [fieldMatches_local _ _ _ h5] at hab; simp [LogicalPartition.lacking, hab]

theorem LogicalPartition_unmarshalPath_present (W : World) (absent : String → Bool)
    (start : Hmc.Name) (cs1 : List Node) (sv : LogicalPartition)
    (hab : absent start.Local = false) :
    LogicalPartition.unmarshalPath W start cs1 (sv.lacking absent) =
      mapOk (LogicalPartition.lacking absent) (LogicalPartition.unmarshalPath W start cs1 sv) := by
  unfold LogicalPartition.unmarshalPath
  split_ifs with h1 h2 h3 h4 h5
  · rw [fieldMatches_local _ _ _ h1] at hab
    refine Eq.trans ?_ (unmarshalString_comp cs1 (fun v => { sv with PartitionName := v })
      (LogicalPartition.lacking absent))
    congr 2; funext v; simp [LogicalPartition.lacking, hab]
  · rw [fieldMatches_local _ _ _ h2] at hab
    refine Eq.trans ?_ (unmarshalNumber_comp W.parseInt cs1 (fun v => { sv with PartitionID := v })
      (LogicalPartition.lacking absent))
    congr 2; funext v; simp [LogicalPartition.lacking, hab]
  · rw [fieldMatches_local _ _ _ h3] at hab
    refine Eq.trans ?_ (unmarshalString_comp cs1 (fun v => { sv with PartitionUUID := v })
      (LogicalPartition.lacking absent))
    congr 2; funext v; simp [LogicalPartition.lacking, hab]
  · rw [fieldMatches_local _ _ _ h4] at hab
    refine Eq.trans ?_ (unmarshalString_comp cs1 (fun v => { sv with LogicalSerialNumber := v })
      (LogicalPartition.lacking absent))
    congr 2; funext v; simp [LogicalPartition.lacking, hab]
  · rw [fieldMatches_local _ _ _ h5] at hab
    refine Eq.trans ?_ (unmarshalString_comp cs1 (fun v => { sv with OperatingSystemVersion := v })
      (LogicalPartition.lacking absent))
    congr 2; funext v; simp [LogicalPartition.lacking, hab]
  · rfl

theorem LogicalPartition_unmarshal_without (W : World) (absent : String → Bool)
    (start : Hmc.Name) (cs : List Node) (r : LogicalPartition)
    (h : LogicalPartition.unmarshal W start cs LogicalPartition.zero = (r, none)) :
    LogicalPartition.unmarshal W start (without absent cs) LogicalPartition.zero =
      (r.lacking absent, none) := by
  unfold LogicalPartition.unmarshal unmarshalStruct at h ⊢
  cases hc : checkXMLName uom "LogicalPartition" start with
  | some e => simp [hc] at h
  | none =>
    simp only [hc] at h ⊢
    have := unmarshalFields_without (LogicalPartition.unmarshalPath W)
      (LogicalPartition.lacking absent) absent
      (fun a b c d => LogicalPartition_unmarshalPath_absent W absent a b c d)
      (fun a b c => LogicalPartition_unmarshalPath_present W absent a b c) cs _ r h
    simpa [LogicalPartition.lacking, LogicalPartition.zero] using this

end HmcLparList

/-! ### What every run does first -/

namespace Hmc

theorem doLogon_sends (W : World) (s : Session) (tr : List Event)
    (hreq : W.newRequestErr "PUT" (authurl s) = none) :
    ∃ rest, (doLogon W s tr).trace = tr ++ Event.newRequest "PUT" (authurl s) (loginRequest W s).Body ::
      Event.send (loginRequest W s) (W.jarCookies s.client.Jar (W.parseURL (authurl s))) :: rest := by
  cases hans : answer W s (tr ++ [Event.newRequest "PUT" (authurl s) (loginRequest W s).Body])
      (loginRequest W s) with
  | error e => exact ⟨[], (doLogon_transport W s tr e hreq hans).2.1⟩
  | ok r =>
    refine ⟨if r.StatusCode = 200 then [Event.close] else [], ?_⟩
    rw [(doLogon_answered W s tr r hreq hans).2.1]
    simp

theorem doLogon_begins (W : World) (s : Session) (tr : List Event) :
    ∃ rest, (doLogon W s tr).trace =
      tr ++ Event.newRequest "PUT" (authurl s) (loginRequest W s).Body :: rest := by
  cases hreq : W.newRequestErr "PUT" (authurl s) with
  | some e => exact ⟨[], (doLogon_rejected W s tr e hreq).2.1⟩
  | none =>
    obtain ⟨rest, h⟩ := doLogon_sends W s tr hreq
    exact ⟨_, h⟩

end Hmc

namespace HmcSspAddLu
open Hmc

theorem searchSSP_sends (W : World) (s : Session) (tr : List Event) (name : String)
    (hreq : W.newRequestErr "GET" (sspurl s name) = none) :
    ∃ rest, (searchSSP W s tr name).trace = tr ++ Event.newRequest "GET" (sspurl s name) none ::
      Event.send (getRequest W (sspurl s name)) (W.jarCookies s.client.Jar (W.parseURL (sspurl s name))) :: rest := by
  cases hans : answer W s (tr ++ [Event.newRequest "GET" (sspurl s name) none]) (getRequest W (sspurl s name)) with
  | error e =>
    exact ⟨[], (searchSSP_transport W s tr name e hreq hans).2⟩
  | ok r =>
    cases hread : r.BodyErr with
    | some e =>
      exact ⟨[Event.readAll], (searchSSP_unread W s tr name r e hreq hans hread).2⟩
    | none =>
      by_cases hstatus : r.StatusCode = 200
      · cases hdec : Unmarshal (Feed.unmarshal W) (W.tokens r.Body) Feed.zero with
        | mk feed oe =>
          cases oe with
          | none =>
            refine ⟨Event.readAll :: heading :: (feed.records.map row ++ [Event.close]), ?_⟩
            rw [(searchSSP_ok W s tr name r feed hreq hans hread hstatus hdec).2]
            simp
          | some e =>
            exact ⟨[Event.readAll],
              (searchSSP_undecoded W s tr name r feed e hreq hans hread hstatus hdec).2⟩
      · exact ⟨[Event.readAll], (searchSSP_status W s tr name r hreq hans hread hstatus).2⟩

theorem searchSSP_begins (W : World) (s : Session) (tr : List Event) (name : String) :
    ∃ rest, (searchSSP W s tr name).trace = tr ++ Event.newRequest "GET" (sspurl s name) none :: rest := by
  cases hreq : W.newRequestErr "GET" (sspurl s name) with
  | some e => exact ⟨[], (searchSSP_rejected W s tr name e hreq).2⟩
  | none =>
    obtain ⟨rest, h⟩ := searchSSP_sends W s tr name hreq
    exact ⟨_, h⟩

end HmcSspAddLu

namespace HmcLparList
open Hmc

theorem getManaged_sends (W : World) (s : Session) (tr : List Event)
    (hreq : W.newRequestErr "GET" (mgdurl s) = none) :
    ∃ rest, (getManaged W s tr).trace = tr ++ Event.newRequest "GET" (mgdurl s) none ::
      Event.send (getRequest W (mgdurl s)) (W.jarCookies s.client.Jar (W.parseURL (mgdurl s))) :: rest := by
  cases hans : answer W s (tr ++ [Event.newRequest "GET" (mgdurl s) none]) (getRequest W (mgdurl s)) with
  | error e =>
    exact ⟨[], (getManaged_transport W s tr e hreq hans).2⟩
  | ok r =>
    cases hread : r.BodyErr with
    | some e =>
      exact ⟨[Event.readAll], (getManaged_unread W s tr r e hreq hans hread).2⟩
    | none =>
      by_cases hstatus : r.StatusCode = 200
      · cases hdec : Unmarshal (Feed.unmarshal W) (W.tokens r.Body) Feed.zero with
        | mk feed oe =>
          cases oe with
          | none =>
            refine ⟨Event.readAll :: heading :: (feed.records.map row ++ [Event.close]), ?_⟩
            rw [(getManaged_ok W s tr r feed hreq hans hread hstatus hdec).2]
            simp
          | some e =>
            exact ⟨[Event.readAll],
              (getManaged_undecoded W s tr r feed e hreq hans hread hstatus hdec).2⟩
      · exact ⟨[Event.readAll], (getManaged_status W s tr r hreq hans hread hstatus).2⟩

theorem getManaged_begins (W : World) (s : Session) (tr : List Event) :
    ∃ rest, (getManaged W s tr).trace = tr ++ Event.newRequest "GET" (mgdurl s) none :: rest := by
  cases hreq : W.newRequestErr "GET" (mgdurl s) with
  | some e => exact ⟨[], (getManaged_rejected_lpar W s tr e hreq).2⟩
  | none =>
    obtain ⟨rest, h⟩ := getManaged_sends W s tr hreq
    exact ⟨_, h⟩

end HmcLparList

/-! ### The programs `main` -/

namespace Hmc

theorem andThen_returned {α β : Type} (r : Run α) (f : α → Session → List Event → Run β) (a : α)
    (h : r.outcome = .returned a) : r.andThen f = f a r.session r.trace := by
  unfold Run.andThen
  rw [h]

theorem andThen_fatalf {α β : Type} (r : Run α) (f : α → Session → List Event → Run β)
    (format : String) (args : List Arg) (h : r.outcome = .fatalf format args) :
    (r.andThen f).outcome = .fatalf format args ∧ (r.andThen f).trace = r.trace := by
  unfold Run.andThen
  rw [h]
  exact ⟨rfl, rfl⟩

theorem andThen_extends {α β : Type} (r : Run α) (f : α → Session → List Event → Run β)
    (h : ∀ a s tr, ∃ rest, (f a s tr).trace = tr ++ rest) :
    ∃ rest, (r.andThen f).trace = r.trace ++ rest := by
  unfold Run.andThen
  cases r.outcome with
  | returned a => exact h a r.session r.trace
  | fatal args => exact ⟨[], by simp⟩
  | fatalf format args => exact ⟨[], by simp⟩
  | panic msg => exact ⟨[], by simp⟩

end Hmc

namespace HmcSspAddLu
open Hmc

theorem main_logged_in_ssp (W : World) (user password ssp_name url : String) (r : Response)
    (hreq : W.newRequestErr "PUT" (authurl (NewSession user password url)) = none)
    (hans : answer W (NewSession user password url)
      [Event.newRequest "PUT" (authurl (NewSession user password url))
        (loginRequest W (NewSession user password url)).Body]
      (loginRequest W (NewSession user password url)) = .ok r)
    (hstatus : r.StatusCode = 200)
    (hget : W.newRequestErr "GET" (sspurl (NewSession user password url) ssp_name) = none) :
    ∃ rest, (main W user password ssp_name url).trace =
      [Event.newRequest "PUT" (authurl (NewSession user password url))
          (loginRequest W (NewSession user password url)).Body,
        Event.send (loginRequest W (NewSession user password url))
          (W.jarCookies [] (W.parseURL (authurl (NewSession user password url)))),
        Event.close,
        Event.newRequest "GET" (sspurl (NewSession user password url) ssp_name) none,
        Event.send (getRequest W (sspurl (NewSession user password url) ssp_name))
          (W.jarCookies
            (if r.Cookies.isEmpty then []
              else [(W.parseURL (authurl (NewSession user password url)), r.Cookies)])
            (W.parseURL (sspurl (NewSession user password url) ssp_name)))] ++ rest := by
  obtain ⟨h1, h2, h3, h4⟩ := doLogon_answered W (NewSession user password url) [] r hreq hans
  simp only [hstatus, if_true, List.nil_append] at h1 h2
  have hurl : sspurl (doLogon W (NewSession user password url) []).session ssp_name =
      sspurl (NewSession user password url) ssp_name := by
    unfold sspurl; rw [h3]
  have hjar : (NewSession user password url).client.Jar = [] := rfl
  rw [hjar, List.nil_append] at h4
  unfold main
  rw [andThen_returned _ _ () h1]
  obtain ⟨rest1, hs⟩ := searchSSP_sends W (doLogon W (NewSession user password url) []).session
    (doLogon W (NewSession user password url) []).trace ssp_name (by rw [hurl]; exact hget)
  obtain ⟨rest2, he⟩ := andThen_extends
    (searchSSP W (doLogon W (NewSession user password url) []).session
      (doLogon W (NewSession user password url) []).trace ssp_name)
    (fun ssps s tr => (⟨.returned (), s,
      ssps.foldl (fun tr ssp => tr ++ [Event.println [.str ssp]]) tr⟩ : Run Unit))
    (by
      intro a s tr
      refine ⟨a.flatMap fun ssp => [Event.println [.str ssp]], ?_⟩
      exact foldl_append (fun ssp => [Event.println [.str ssp]]) _ (fun _ _ => rfl) a tr)
  refine ⟨rest1 ++ rest2, ?_⟩
  rw [he, hs, hurl, h4, h2, hjar]
  simp

theorem main_refused_ssp (W : World) (user password ssp_name url : String) (r : Response)
    (hreq : W.newRequestErr "PUT" (authurl (NewSession user password url)) = none)
    (hans : answer W (NewSession user password url)
      [Event.newRequest "PUT" (authurl (NewSession user password url))
        (loginRequest W (NewSession user password url)).Body]
      (loginRequest W (NewSession user password url)) = .ok r)
    (hstatus : r.StatusCode ≠ 200) :
    (main W user password ssp_name url).outcome =
      .fatalf "Error status code: %d" [.int r.StatusCode] ∧
    (main W user password ssp_name url).trace =
      [Event.newRequest "PUT" (authurl (NewSession user password url))
          (loginRequest W (NewSession user password url)).Body,
        Event.send (loginRequest W (NewSession user password url))
          (W.jarCookies [] (W.parseURL (authurl (NewSession user password url))))] := by
  obtain ⟨h1, h2, -, -⟩ := doLogon_answered W (NewSession user password url) [] r hreq hans
  simp only [hstatus, if_false, List.nil_append, List.append_nil] at h1 h2
  unfold main
  obtain ⟨k1, k2⟩ := andThen_fatalf (doLogon W (NewSession user password url) [])
    (fun _ s tr => (searchSSP W s tr ssp_name).andThen fun ssps s tr =>
      (⟨.returned (), s, ssps.foldl (fun tr ssp => tr ++ [Event.println [.str ssp]]) tr⟩ :
        Run Unit)) _ _ h1
  exact ⟨k1, by rw [k2, h2]; rfl⟩

end HmcSspAddLu

namespace HmcLparList
open Hmc

theorem main_logged_in_lpar (W : World) (user password url : String) (r : Response)
    (hreq : W.newRequestErr "PUT" (authurl (NewSession user password url)) = none)
    (hans : answer W (NewSession user password url)
      [Event.newRequest "PUT" (authurl (NewSession user password url))
        (loginRequest W (NewSession user password url)).Body]
      (loginRequest W (NewSession user password url)) = .ok r)
    (hstatus : r.StatusCode = 200)
    (hget : W.newRequestErr "GET" (mgdurl (NewSession user password url)) = none) :
    ∃ rest, (main W user password url).trace =
      [Event.newRequest "PUT" (authurl (NewSession user password url))
          (loginRequest W (NewSession user password url)).Body,
        Event.send (loginRequest W (NewSession user password url))
          (W.jarCookies [] (W.parseURL (authurl (NewSession user password url)))),
        Event.close,
        Event.newRequest "GET" (mgdurl (NewSession user password url)) none,
        Event.send (getRequest W (mgdurl (NewSession user password url)))
          (W.jarCookies
            (if r.Cookies.isEmpty then []
              else [(W.parseURL (authurl (NewSession user password url)), r.Cookies)])
            (W.parseURL (mgdurl (NewSession user password url))))] ++ rest := by
  obtain ⟨h1, h2, h3, h4⟩ := doLogon_answered W (NewSession user password url) [] r hreq hans
  simp only [hstatus, if_true, List.nil_append] at h1 h2
  have hurl : mgdurl (doLogon W (NewSession user password url) []).session =
      mgdurl (NewSession user password url) := by
    unfold mgdurl; rw [h3]
  have hjar : (NewSession user password url).client.Jar = [] := rfl
  rw [hjar, List.nil_append] at h4
  unfold main
  rw [andThen_returned _ _ () h1]
  obtain ⟨rest1, hs⟩ := getManaged_sends W (doLogon W (NewSession user password url) []).session
    (doLogon W (NewSession user password url) []).trace (by rw [hurl]; exact hget)
  refine ⟨rest1, ?_⟩
  rw [hs, hurl, h4, h2, hjar]
  simp

theorem main_refused_lpar (W : World) (user password url : String) (r : Response)
    (hreq : W.newRequestErr "PUT" (authurl (NewSession user password url)) = none)
    (hans : answer W (NewSession user password url)
      [Event.newRequest "PUT" (authurl (NewSession user password url))
        (loginRequest W (NewSession user password url)).Body]
      (loginRequest W (NewSession user password url)) = .ok r)
    (hstatus : r.StatusCode ≠ 200) :
    (main W user password url).outcome =
      .fatalf "Error status code: %d" [.int r.StatusCode] ∧
    (main W user password url).trace =
      [Event.newRequest "PUT" (authurl (NewSession user password url))
          (loginRequest W (NewSession user password url)).Body,
        Event.send (loginRequest W (NewSession user password url))
          (W.jarCookies [] (W.parseURL (authurl (NewSession user password url))))] := by
  obtain ⟨h1, h2, -, -⟩ := doLogon_answered W (NewSession user password url) [] r hreq hans
  simp only [hstatus, if_false, List.nil_append, List.append_nil] at h1 h2
  unfold main
  obtain ⟨k1, k2⟩ := andThen_fatalf (doLogon W (NewSession user password url) [])
    (fun _ s tr => getManaged W s tr) _ _ h1
  exact ⟨k1, by rw [k2, h2]; rfl⟩

end HmcLparList

/-! ### A record with absent children in its content -/

namespace Hmc

theorem checkXMLName_fieldMatches (xmlns name : String) (start : Name) (hn : name ≠ "")
    (hx : xmlns ≠ "") (h : checkXMLName xmlns name start = none) :
    fieldMatches xmlns name start = true := by
  unfold checkXMLName at h
  unfold fieldMatches
  by_cases h1 : name = start.Local
  · by_cases h2 : xmlns = start.Space
    · simp [h1, h2]
    · simp [h1, h2, hx] at h
  · simp [h1, hn] at h

end Hmc

namespace HmcSspAddLu
open Hmc

theorem Content_unmarshalPath_without_ssp (W : World) (absent : String → Bool) (start : Hmc.Name)
    (cs : List Node) (r : SharedStoragePool) (c : Content)
    (h : SharedStoragePool.unmarshal W start cs SharedStoragePool.zero = (r, none)) :
    Content.unmarshalPath W start (without absent cs) c =
      some (.ok { c with SharedStoragePools := c.SharedStoragePools ++ [r.lacking absent] }) := by
  have hchk : checkXMLName uom "SharedStoragePool" start = none := by
    unfold SharedStoragePool.unmarshal unmarshalStruct at h
    cases hc : checkXMLName uom "SharedStoragePool" start with
    | none => rfl
    | some e => simp [hc] at h
  have hfm := checkXMLName_fieldMatches uom "SharedStoragePool" start (by decide) (by decide) hchk
  unfold Content.unmarshalPath
  simp [hfm, unmarshalSlice, sliceElem, SharedStoragePool_unmarshal_without W absent start cs r h]

end HmcSspAddLu

namespace HmcLparList
open Hmc

theorem Content_unmarshalPath_without_lpar (W : World) (absent : String → Bool) (start : Hmc.Name)
    (cs : List Node) (r : LogicalPartition) (c : Content)
    (h : LogicalPartition.unmarshal W start cs LogicalPartition.zero = (r, none)) :
    Content.unmarshalPath W start (without absent cs) c =
      some (.ok { c with Lpar := c.Lpar ++ [r.lacking absent] }) := by
  have hchk : checkXMLName uom "LogicalPartition" start = none := by
    unfold LogicalPartition.unmarshal unmarshalStruct at h
    cases hc : checkXMLName uom "LogicalPartition" start with
    | none => rfl
    | some e => simp [hc] at h
  have hfm := checkXMLName_fieldMatches uom "LogicalPartition" start (by decide) (by decide) hchk
  unfold Content.unmarshalPath
  simp [hfm, unmarshalSlice, sliceElem, LogicalPartition_unmarshal_without W absent start cs r h]

end HmcLparList

/-! ## The claims -/

set_option maxRecDepth 100000

namespace Hmc

theorem sends_append (a b : List Event) : sends (a ++ b) = sends a + sends b := by
  induction a with
  | nil => simp [sends]
  | cons e es ih =>
    have ih' : sends (es ++ b) = sends es + sends b := ih
    cases e
    case send =>
      show sends (es ++ b) + 1 = sends es + 1 + sends b
      omega
    all_goals exact ih'

/-- Claim C1: for every decoded feed value the fetch operations yield all
its records in document order (feed, entries, contents, records).  On a 200
response whose body decodes to `feed`, `searchSSP` returns the UUIDs of
`feed.records`, as many as the feed has pools, nothing reordered, dropped or
merged, and `getManaged` prints the heading and then one row for each
partition of `feed.records`, in that order. -/
theorem fetch_yields_records_in_document_order (W : World) (s : Session) (tr : List Event) :
    (∀ (name : String) (r : Response) (feed : HmcSspAddLu.Feed),
      W.newRequestErr "GET" (HmcSspAddLu.sspurl s name) = none →
      answer W s (tr ++ [Event.newRequest "GET" (HmcSspAddLu.sspurl s name) none])
        (getRequest W (HmcSspAddLu.sspurl s name)) = .ok r →
      r.BodyErr = none → r.StatusCode = 200 →
      Unmarshal (HmcSspAddLu.Feed.unmarshal W) (W.tokens r.Body) HmcSspAddLu.Feed.zero =
        (feed, none) →
      (HmcSspAddLu.searchSSP W s tr name).outcome =
        .returned (feed.records.map fun ssp => ssp.UUID) ∧
      (feed.records.map fun ssp => ssp.UUID).length = feed.count ∧
      (HmcSspAddLu.searchSSP W s tr name).trace =
        tr ++ [Event.newRequest "GET" (HmcSspAddLu.sspurl s name) none,
          Event.send (getRequest W (HmcSspAddLu.sspurl s name))
            (W.jarCookies s.client.Jar (W.parseURL (HmcSspAddLu.sspurl s name))),
          Event.readAll, HmcSspAddLu.heading] ++
        feed.records.map HmcSspAddLu.row ++ [Event.close]) ∧
    (∀ (r : Response) (feed : HmcLparList.Feed),
      W.newRequestErr "GET" (HmcLparList.mgdurl s) = none →
      answer W s (tr ++ [Event.newRequest "GET" (HmcLparList.mgdurl s) none])
        (getRequest W (HmcLparList.mgdurl s)) = .ok r →
      r.BodyErr = none → r.StatusCode = 200 →
      Unmarshal (HmcLparList.Feed.unmarshal W) (W.tokens r.Body) HmcLparList.Feed.zero =
        (feed, none) →
      (HmcLparList.getManaged W s tr).outcome = .returned () ∧
      (feed.records.map HmcLparList.row).length = feed.count ∧
      (HmcLparList.getManaged W s tr).trace =
        tr ++ [Event.newRequest "GET" (HmcLparList.mgdurl s) none,
          Event.send (getRequest W (HmcLparList.mgdurl s))
            (W.jarCookies s.client.Jar (W.parseURL (HmcLparList.mgdurl s))),
          Event.readAll, HmcLparList.heading] ++
        feed.records.map HmcLparList.row ++ [Event.close]) := by
  constructor
  · intro name r feed hreq hans hread hstatus hdec
    obtain ⟨h1, h2⟩ := HmcSspAddLu.searchSSP_ok W s tr name r feed hreq hans hread hstatus hdec
    exact ⟨h1, by rw [List.length_map, HmcSspAddLu.records_length_ssp], h2⟩
  · intro r feed hreq hans hread hstatus hdec
    obtain ⟨h1, h2⟩ := HmcLparList.getManaged_ok W s tr r feed hreq hans hread hstatus hdec
    exact ⟨h1, by rw [List.length_map, HmcLparList.records_length_lpar], h2⟩

/-- The feed with the partitions `lpar1` (UUID `u1`) and `lpar2` (UUID `u2`)
makes `getManaged` print the heading, the row of `lpar1` and then the row of
`lpar2`; the feed with two pools of the same UUID `d1` makes `searchSSP`
return `d1` twice. -/
theorem fetch_yields_records_in_document_order_witness :
    (HmcLparList.getManaged (serving 200 twoPartitionsText twoPartitions) sampleSession []).trace =
      [Event.newRequest "GET" "https://myhmc:12443/rest/api/uom/LogicalPartition" none,
        Event.send (getRequest (serving 200 twoPartitionsText twoPartitions) "https://myhmc:12443/rest/api/uom/LogicalPartition") [],
        Event.readAll,
        HmcLparList.heading,
        Event.printf "\t%-10s\t%-40s\t%-8s\t%-25s\n" [.str "lpar1", .str "u1", .str "", .str ""],
        Event.printf "\t%-10s\t%-40s\t%-8s\t%-25s\n" [.str "lpar2", .str "u2", .str "", .str ""],
        Event.close] ∧
    (HmcSspAddLu.searchSSP (serving 200 twoPoolsText twoPools) sampleSession [] "ssp").outcome = .returned ["d1", "d1"] :=
  ⟨((fetch_yields_records_in_document_order
      (serving 200 twoPartitionsText twoPartitions)
      sampleSession []).2 (sampleResponse 200 [] twoPartitionsText)
    (Unmarshal (HmcLparList.Feed.unmarshal
      (serving 200 twoPartitionsText twoPartitions))
      twoPartitions HmcLparList.Feed.zero).1 rfl rfl rfl rfl rfl).2.2.trans rfl,
   ((fetch_yields_records_in_document_order
      (serving 200 twoPoolsText twoPools)
      sampleSession []).1 "ssp" (sampleResponse 200 [] twoPoolsText)
    (Unmarshal (HmcSspAddLu.Feed.unmarshal
      (serving 200 twoPoolsText twoPools))
      twoPools HmcSspAddLu.Feed.zero).1 rfl rfl rfl rfl rfl).1.trans rfl⟩

/-- Claim C2: once the login request is built, `doLogon` returns if and only
if the transport gave a response whose status code is 200.  In every other
case (another status code, or a transport error) it ends in a fatal error.
In all cases exactly one request has been sent, and the outcome is a
function of the status code alone, not of the rest of the response. -/
theorem doLogon_succeeds_iff_status_200 (W : World) (s : Session) (tr : List Event)
    (hreq : W.newRequestErr "PUT" (authurl s) = none) :
    ((doLogon W s tr).outcome = .returned () ↔
      ∃ r, answer W s (tr ++ [Event.newRequest "PUT" (authurl s) (loginRequest W s).Body])
        (loginRequest W s) = .ok r ∧ r.StatusCode = 200) ∧
    ((doLogon W s tr).outcome ≠ .returned () → (doLogon W s tr).outcome.isFatal = true) ∧
    sends (doLogon W s tr).trace = sends tr + 1 ∧
    (∀ r, answer W s (tr ++ [Event.newRequest "PUT" (authurl s) (loginRequest W s).Body])
        (loginRequest W s) = .ok r →
      (doLogon W s tr).outcome =
        (if r.StatusCode = 200 then .returned ()
          else .fatalf "Error status code: %d" [.int r.StatusCode])) := by
  cases hans : answer W s (tr ++ [Event.newRequest "PUT" (authurl s) (loginRequest W s).Body])
      (loginRequest W s) with
  | error e =>
    obtain ⟨h1, h2, -⟩ := doLogon_transport W s tr e hreq hans
    refine ⟨?_, ?_, ?_, ?_⟩
    · rw [h1]; simp
    · intro _; rw [h1]; rfl
    · rw [h2]; simp [sends_append, sends]
    · intro r hr; cases hr
  | ok r =>
    obtain ⟨h1, h2, -, -⟩ := doLogon_answered W s tr r hreq hans
    refine ⟨?_, ?_, ?_, ?_⟩
    · rw [h1]
      by_cases h200 : r.StatusCode = 200
      · simp [h200]
      · simp [h200]
    · rw [h1]
      by_cases h200 : r.StatusCode = 200
      · simp [h200]
      · simp [h200, Outcome.isFatal]
    · rw [h2]
      by_cases h200 : r.StatusCode = 200
      · simp [h200, sends_append, sends]
      · simp [h200, sends_append, sends]
    · intro r' hr'
      cases hr'
      exact h1

/-- A login answered with status 401 ends in the fatal error that reports
401, after one request. -/
theorem doLogon_succeeds_iff_status_200_witness :
    (doLogon refusing sampleSession
      []).outcome = .fatalf "Error status code: %d" [.int 401] ∧
    sends (doLogon refusing sampleSession
      []).trace = 1 :=
  ⟨(doLogon_succeeds_iff_status_200
      refusing sampleSession [] rfl).2.2.2
      (sampleResponse 401 [] "") rfl,
    (doLogon_succeeds_iff_status_200
      refusing sampleSession [] rfl).2.2.1⟩

/-- Claim C3, on the failing input: `getManaged` of `hmctest.go` has no check
of the status code.  On a response with status 500 whose body holds the two
partitions `lpar1` and `lpar2` it prints the status, decodes the body, prints
both rows and returns, where the claim wants an error that reports 500 and no
record printed. -/
theorem hmctest_getManaged_ignores_status :
    (Hmctest.getManaged (serving 500 twoPartitionsText twoPartitions) sampleSession []).outcome = .returned () ∧
    (Hmctest.getManaged (serving 500 twoPartitionsText twoPartitions) sampleSession []).trace =
      [Event.newRequest "GET" "https://myhmc:12443/rest/api/uom/LogicalPartition" none,
        Event.send (getRequest (serving 500 twoPartitionsText twoPartitions) "https://myhmc:12443/rest/api/uom/LogicalPartition") [],
        Event.readAll,
        Event.println [.str "The calculated length is:", .int 653, .str "for the url:",
          .str "https://myhmc:12443/rest/api/uom/LogicalPartition"],
        Event.println [.str "   ", .int 500],
        Event.printf "\t%s\t%s\t%s\n" [.str "lpar1", .str "u1", .str ""],
        Event.printf "\t%s\t%s\t%s\n" [.str "lpar2", .str "u2", .str ""],
        Event.close] :=
  ⟨rfl, rfl⟩

/-- Claim C4, on the failing input: `getManaged` of `hmctest.go` prints the
error of the decoder and goes on.  On a body cut off inside its second entry
it prints the error, then the row of the partition `lpar1` decoded before
the error, and returns, where the claim wants a fatal error and no record
printed. -/
theorem hmctest_getManaged_prints_records_decoded_before_error :
    (Unmarshal (Hmctest.Feed.unmarshal
      (serving 200 truncatedText truncated))
      truncated Hmctest.Feed.zero).2 = some "XML syntax error on line 1: unexpected EOF" ∧
    (Hmctest.getManaged (serving 200 truncatedText truncated) sampleSession []).outcome = .returned () ∧
    (Hmctest.getManaged (serving 200 truncatedText truncated) sampleSession []).trace =
      [Event.newRequest "GET" "https://myhmc:12443/rest/api/uom/LogicalPartition" none,
        Event.send (getRequest (serving 200 truncatedText truncated) "https://myhmc:12443/rest/api/uom/LogicalPartition") [],
        Event.readAll,
        Event.println [.str "The calculated length is:", .int 583, .str "for the url:",
          .str "https://myhmc:12443/rest/api/uom/LogicalPartition"],
        Event.println [.str "   ", .int 200],
        Event.println [.err "XML syntax error on line 1: unexpected EOF"],
        Event.printf "\t%s\t%s\t%s\n" [.str "lpar1", .str "u1", .str ""],
        Event.close] :=
  ⟨rfl, rfl, rfl⟩

/-- Claim C10, on the failing input: the error of `http.NewRequest` is never
looked at.  With the search value `a%zz` the URL is rejected, `searchSSP`
goes on to set a header on the nil request and the run stops in a nil
dereference panic, not in a reported fatal error; `doLogon` and `getManaged`
do the same on a base URL that is rejected.  Nothing is sent. -/
theorem rejected_request_is_dereferenced :
    (HmcSspAddLu.searchSSP offline sampleSession []
      "a%zz").outcome = .panic nilDereference ∧
    (HmcSspAddLu.searchSSP offline sampleSession []
      "a%zz").trace =
      [Event.newRequest "GET"
        "https://myhmc:12443/rest/api/uom/SharedStoragePool/search/(StoragePoolName==a%zz)" none] ∧
    (doLogon offline
      (NewSession "hscroot" "abc123" "https://myhmc:12443/%zz") []).outcome =
      .panic nilDereference ∧
    (HmcLparList.getManaged offline
      (NewSession "hscroot" "abc123" "https://myhmc:12443/%zz") []).outcome =
      .panic nilDereference ∧
    (Hmctest.getManaged offline
      (NewSession "hscroot" "abc123" "https://myhmc:12443/%zz") []).outcome =
      .panic nilDereference :=
  ⟨rfl, rfl, rfl, rfl, rfl⟩

/-- Claim C5: for every user, password and base URL, `doLogon` first renders
the whole body (the text of the template with the user and the password put
in as they are) and then asks for a PUT request to the base URL followed by
`/rest/api/web/Logon` with that body; when the request is built, what is sent
is that request (its URL being the one parsed from that string) with exactly
the three headers `Content-Type`, `Accept` and `X-Audit-Memento`. -/
theorem doLogon_builds_login_request (W : World) (s : Session) (tr : List Event) :
    Execute logintemplate s =
      .ok (bodyHead ++ s.User ++ bodyMiddle ++ s.Password ++ bodyTail) ∧
    (∃ rest, (doLogon W s tr).trace =
      tr ++ Event.newRequest "PUT" (s.url ++ "/rest/api/web/Logon")
        (some (bodyHead ++ s.User ++ bodyMiddle ++ s.Password ++ bodyTail)) :: rest) ∧
    (W.newRequestErr "PUT" (s.url ++ "/rest/api/web/Logon") = none →
      ∃ rest, (doLogon W s tr).trace =
        tr ++ Event.newRequest "PUT" (s.url ++ "/rest/api/web/Logon")
          (some (bodyHead ++ s.User ++ bodyMiddle ++ s.Password ++ bodyTail)) ::
        Event.send
          { Method := "PUT", URL := W.parseURL (s.url ++ "/rest/api/web/Logon"),
            Header := [("Content-Type", "application/vnd.ibm.powervm.web+xml; type=LogonRequest"),
              ("Accept", "application/vnd.ibm.powervm.web+xml; type=LogonResponse"),
              ("X-Audit-Memento", "hmctest")],
            Body := some (bodyHead ++ s.User ++ bodyMiddle ++ s.Password ++ bodyTail) }
          (W.jarCookies s.client.Jar (W.parseURL (s.url ++ "/rest/api/web/Logon"))) :: rest) :=
  ⟨Execute_logintemplate s, doLogon_begins W s tr, fun hreq => doLogon_sends W s tr hreq⟩

/-- A user `a<b&c` and a password `p&<` stand unchanged in the body of the
login request. -/
theorem doLogon_builds_login_request_witness :
    ∃ rest, (doLogon offline
      (NewSession "a<b&c" "p&<" "https://myhmc:12443") []).trace =
      Event.newRequest "PUT" "https://myhmc:12443/rest/api/web/Logon"
        (some ("<?xml version=\"1.0\" encoding=\"UTF-8\" standalone=\"yes\"?>\n" ++
          "  <LogonRequest xmlns=\"http://www.ibm.com/xmlns/systems/power/firmware/web/mc/2012_10/\" schemaVersion=\"V1_1_0\">\n" ++
          "    <Metadata>\n" ++
          "      <Atom/>\n" ++
          "    </Metadata>\n" ++
          "    <UserID kb=\"CUR\" kxe=\"false\">a<b&c</UserID>\n" ++
          "    <Password kb=\"CUR\" kxe=\"false\">p&<</Password>\n" ++
          "  </LogonRequest>")) ::
      Event.send
        { Method := "PUT",
          URL :=
            { Scheme := "https", Opaque := "", Host := "myhmc:12443",
              Path := "/rest/api/web/Logon", RawPath := "", ForceQuery := false, RawQuery := "" },
          Header := [("Content-Type", "application/vnd.ibm.powervm.web+xml; type=LogonRequest"),
            ("Accept", "application/vnd.ibm.powervm.web+xml; type=LogonResponse"),
            ("X-Audit-Memento", "hmctest")],
          Body := some ("<?xml version=\"1.0\" encoding=\"UTF-8\" standalone=\"yes\"?>\n" ++
            "  <LogonRequest xmlns=\"http://www.ibm.com/xmlns/systems/power/firmware/web/mc/2012_10/\" schemaVersion=\"V1_1_0\">\n" ++
            "    <Metadata>\n" ++
            "      <Atom/>\n" ++
            "    </Metadata>\n" ++
            "    <UserID kb=\"CUR\" kxe=\"false\">a<b&c</UserID>\n" ++
            "    <Password kb=\"CUR\" kxe=\"false\">p&<</Password>\n" ++
            "  </LogonRequest>") }
        [] :: rest :=
  (doLogon_builds_login_request offline
    (NewSession "a<b&c" "p&<" "https://myhmc:12443") []).2.2 rfl

/-- Claim C6 as stated fails: with the search value `a b)%41` the URL string
handed to `http.NewRequest` holds the value as it is, but the URL of the
request that is sent is the one parsed from that string, and the request
target written from it is percent-encoded: the parentheses become `%28` and
`%29`, the space `%20`, and `%41` is read as `A`. -/
theorem searchSSP_request_is_reencoded :
    (HmcSspAddLu.searchSSP servingRooted sampleSession []
      "a b)%41").trace =
      [Event.newRequest "GET"
        "https://myhmc:12443/rest/api/uom/SharedStoragePool/search/(StoragePoolName==a b)%41)"
        none,
        Event.send
          { Method := "GET",
            URL :=
              { Scheme := "https", Opaque := "", Host := "myhmc:12443",
                Path := "/rest/api/uom/SharedStoragePool/search/(StoragePoolName==a b)A)",
                RawPath := "/rest/api/uom/SharedStoragePool/search/(StoragePoolName==a b)%41)",
                ForceQuery := false, RawQuery := "" },
            Header := [("Accept",
              "text/html,application/xhtml+xml,application/xml;q=0.9,image/webp,*/*;q=0.8")],
            Body := none }
          [],
        Event.readAll, HmcSspAddLu.heading, Event.close] ∧
    URL.RequestURI
      { Scheme := "https", Opaque := "", Host := "myhmc:12443",
        Path := "/rest/api/uom/SharedStoragePool/search/(StoragePoolName==a b)A)",
        RawPath := "/rest/api/uom/SharedStoragePool/search/(StoragePoolName==a b)%41)",
        ForceQuery := false, RawQuery := "" } =
      "/rest/api/uom/SharedStoragePool/search/%28StoragePoolName==a%20b%29A%29" ∧
    "/rest/api/uom/SharedStoragePool/search/%28StoragePoolName==a%20b%29A%29" ≠
      "/rest/api/uom/SharedStoragePool/search/(StoragePoolName==a b)%41)" :=
  ⟨rfl, rfl, by decide⟩

/-- Claim C6, amended: for every base URL and every search value, the URL
string `searchSSP` hands to `http.NewRequest` is the base URL followed by
`/rest/api/uom/SharedStoragePool/search/(StoragePoolName==`, the value as it
is and `)`, with the method GET; when the request is built, what is sent is
the request made of that string (its URL being the one parsed from it) with
the fixed `Accept` header and nothing else. -/
theorem searchSSP_builds_search_request (W : World) (s : Session) (tr : List Event)
    (name : String) :
    (∃ rest, (HmcSspAddLu.searchSSP W s tr name).trace =
      tr ++ Event.newRequest "GET"
        (s.url ++ "/rest/api/uom/SharedStoragePool/search/(StoragePoolName==" ++ name ++ ")")
        none :: rest) ∧
    (W.newRequestErr "GET"
        (s.url ++ "/rest/api/uom/SharedStoragePool/search/(StoragePoolName==" ++ name ++ ")") =
        none →
      ∃ rest, (HmcSspAddLu.searchSSP W s tr name).trace =
        tr ++ Event.newRequest "GET"
          (s.url ++ "/rest/api/uom/SharedStoragePool/search/(StoragePoolName==" ++ name ++ ")")
          none ::
        Event.send
          { Method := "GET",
            URL := W.parseURL
              (s.url ++ "/rest/api/uom/SharedStoragePool/search/(StoragePoolName==" ++ name ++ ")"),
            Header := [("Accept",
              "text/html,application/xhtml+xml,application/xml;q=0.9,image/webp,*/*;q=0.8")],
            Body := none }
          (W.jarCookies s.client.Jar (W.parseURL
            (s.url ++ "/rest/api/uom/SharedStoragePool/search/(StoragePoolName==" ++ name ++ ")"))) ::
        rest) :=
  ⟨HmcSspAddLu.searchSSP_begins W s tr name, fun hreq => HmcSspAddLu.searchSSP_sends W s tr name hreq⟩

/-- The search value `a b)%41` stands as it is in the string handed to
`http.NewRequest`; the request sent is the one parsed from that string. -/
theorem searchSSP_builds_search_request_witness :
    ∃ rest, (HmcSspAddLu.searchSSP offline sampleSession [] "a b)%41").trace =
      Event.newRequest "GET"
        "https://myhmc:12443/rest/api/uom/SharedStoragePool/search/(StoragePoolName==a b)%41)"
        none ::
      Event.send
        { Method := "GET",
          URL :=
            { Scheme := "https", Opaque := "", Host := "myhmc:12443",
              Path := "/rest/api/uom/SharedStoragePool/search/(StoragePoolName==a b)A)",
              RawPath := "/rest/api/uom/SharedStoragePool/search/(StoragePoolName==a b)%41)",
              ForceQuery := false, RawQuery := "" },
          Header := [("Accept",
            "text/html,application/xhtml+xml,application/xml;q=0.9,image/webp,*/*;q=0.8")],
          Body := none }
        [] :: rest :=
  (searchSSP_builds_search_request offline sampleSession [] "a b)%41").2 rfl

/-- Claim C7: on a 200 response whose body is an empty feed (a root element
`feed` that is well formed and has no entry, or whose entries have no
content, or whose contents have no domain element of the wanted name and
name space) every fetch operation returns without error and yields nothing:
`searchSSP` returns the empty list and prints only its heading, and both
`getManaged` print no partition row. -/
theorem empty_feed_yields_nothing (W : World) (s : Session) (tr : List Event) (r : Response)
    (pre : List Node) (root : Name) (cs post : List Node)
    (hread : r.BodyErr = none) (hstatus : r.StatusCode = 200)
    (hdoc : W.tokens r.Body = pre ++ Node.element root cs :: post)
    (hpre : pre.all Node.passedOver = true) (hroot : root.Local = "feed")
    (hclean : Skip cs = none) :
    (∀ name : String, emptyFeed "SharedStoragePool" cs = true →
      W.newRequestErr "GET" (HmcSspAddLu.sspurl s name) = none →
      answer W s (tr ++ [Event.newRequest "GET" (HmcSspAddLu.sspurl s name) none])
        (getRequest W (HmcSspAddLu.sspurl s name)) = .ok r →
      (HmcSspAddLu.searchSSP W s tr name).outcome = .returned [] ∧
      (HmcSspAddLu.searchSSP W s tr name).trace =
        tr ++ [Event.newRequest "GET" (HmcSspAddLu.sspurl s name) none,
          Event.send (getRequest W (HmcSspAddLu.sspurl s name))
            (W.jarCookies s.client.Jar (W.parseURL (HmcSspAddLu.sspurl s name))),
          Event.readAll, HmcSspAddLu.heading, Event.close]) ∧
    (emptyFeed "LogicalPartition" cs = true →
      W.newRequestErr "GET" (HmcLparList.mgdurl s) = none →
      answer W s (tr ++ [Event.newRequest "GET" (HmcLparList.mgdurl s) none])
        (getRequest W (HmcLparList.mgdurl s)) = .ok r →
      (HmcLparList.getManaged W s tr).outcome = .returned () ∧
      (HmcLparList.getManaged W s tr).trace =
        tr ++ [Event.newRequest "GET" (HmcLparList.mgdurl s) none,
          Event.send (getRequest W (HmcLparList.mgdurl s))
            (W.jarCookies s.client.Jar (W.parseURL (HmcLparList.mgdurl s))),
          Event.readAll, HmcLparList.heading, Event.close]) ∧
    (emptyFeed "LogicalPartition" cs = true →
      W.newRequestErr "GET" (Hmctest.mgdurl s) = none →
      answer W s (tr ++ [Event.newRequest "GET" (Hmctest.mgdurl s) none])
        (getRequest W (Hmctest.mgdurl s)) = .ok r →
      (Hmctest.getManaged W s tr).outcome = .returned () ∧
      (Hmctest.getManaged W s tr).trace =
        tr ++ [Event.newRequest "GET" (Hmctest.mgdurl s) none,
          Event.send (getRequest W (Hmctest.mgdurl s))
            (W.jarCookies s.client.Jar (W.parseURL (Hmctest.mgdurl s))),
          Event.readAll] ++ Hmctest.report s r ++ [Event.close]) := by
  refine ⟨?_, ?_, ?_⟩
  · intro name hempty hreq hans
    obtain ⟨feed, hdec, hrec⟩ :=
      HmcSspAddLu.decode_emptyFeed_ssp W pre root cs post hpre hroot hclean hempty
    rw [← hdoc] at hdec
    obtain ⟨h1, h2⟩ := HmcSspAddLu.searchSSP_ok W s tr name r feed hreq hans hread hstatus hdec
    rw [hrec] at h1 h2
    exact ⟨h1, by rw [h2]; simp⟩
  · intro hempty hreq hans
    obtain ⟨feed, hdec, hrec⟩ :=
      HmcLparList.decode_emptyFeed_lpar W pre root cs post hpre hroot hclean hempty
    rw [← hdoc] at hdec
    obtain ⟨h1, h2⟩ := HmcLparList.getManaged_ok W s tr r feed hreq hans hread hstatus hdec
    rw [hrec] at h2
    exact ⟨h1, by rw [h2]; simp⟩
  · intro hempty hreq hans
    obtain ⟨feed, hdec, hrec⟩ :=
      Hmctest.decode_emptyFeed_hmctest W pre root cs post hpre hroot hclean hempty
    rw [← hdoc] at hdec
    obtain ⟨h1, h2⟩ := Hmctest.getManaged_read W s tr r hreq hans hread
    rw [hdec] at h2
    simp only [hrec, Hmctest.complaint, List.map_nil, List.append_nil] at h2
    exact ⟨h1, h2⟩

/-- On a 200 response with the body `<feed/>`, `searchSSP` returns the empty
list. -/
theorem empty_feed_yields_nothing_witness :
    (HmcSspAddLu.searchSSP servingRooted sampleSession [] "ssp").outcome = .returned [] :=
  ((empty_feed_yields_nothing servingRooted sampleSession [] (sampleResponse 200 [] "<feed/>") [] ⟨"", "feed"⟩ [] [] rfl rfl rfl rfl rfl rfl).1
    "ssp" rfl rfl rfl).1

/-- Claim C8: when a domain element decodes without error to the record `r`,
the same element without the child elements of any set of names (`absent`)
decodes without error too: the fields of the absent children have their zero
value (the empty string, 0, 0.0), the other fields have their value in `r`,
and the enclosing content gains exactly this record.  This holds for
`SharedStoragePool` and for `LogicalPartition`. -/
theorem absent_fields_decode_to_zero (W : World) (absent : String → Bool) (start : Name)
    (cs : List Node) :
    (∀ (r : HmcSspAddLu.SharedStoragePool) (c : HmcSspAddLu.Content),
      HmcSspAddLu.SharedStoragePool.unmarshal W start cs HmcSspAddLu.SharedStoragePool.zero =
        (r, none) →
      HmcSspAddLu.SharedStoragePool.unmarshal W start (without absent cs)
        HmcSspAddLu.SharedStoragePool.zero =
        ({ XMLName := r.XMLName,
           Name := if absent "StoragePoolName" then "" else r.Name,
           UUID := if absent "UniqueDeviceID" then "" else r.UUID,
           Capacity := if absent "Capacity" then ⟨0⟩ else r.Capacity,
           FreeSpace := if absent "FreeSpace" then ⟨0⟩ else r.FreeSpace }, none) ∧
      HmcSspAddLu.Content.unmarshalPath W start (without absent cs) c =
        some (.ok { c with SharedStoragePools :=
          c.SharedStoragePools ++ [r.lacking absent] })) ∧
    (∀ (r : HmcLparList.LogicalPartition) (c : HmcLparList.Content),
      HmcLparList.LogicalPartition.unmarshal W start cs HmcLparList.LogicalPartition.zero =
        (r, none) →
      HmcLparList.LogicalPartition.unmarshal W start (without absent cs)
        HmcLparList.LogicalPartition.zero =
        ({ XMLName := r.XMLName,
           PartitionName := if absent "PartitionName" then "" else r.PartitionName,
           PartitionID := if absent "PartitionID" then 0 else r.PartitionID,
           PartitionUUID := if absent "PartitionUUID" then "" else r.PartitionUUID,
           LogicalSerialNumber :=
             if absent "LogicalSerialNumber" then "" else r.LogicalSerialNumber,
           OperatingSystemVersion :=
             if absent "OperatingSystemVersion" then "" else r.OperatingSystemVersion }, none) ∧
      HmcLparList.Content.unmarshalPath W start (without absent cs) c =
        some (.ok { c with Lpar := c.Lpar ++ [r.lacking absent] })) :=
  ⟨fun r c h => ⟨HmcSspAddLu.SharedStoragePool_unmarshal_without W absent start cs r h,
      HmcSspAddLu.Content_unmarshalPath_without_ssp W absent start cs r c h⟩,
    fun r c h => ⟨HmcLparList.LogicalPartition_unmarshal_without W absent start cs r h,
      HmcLparList.Content_unmarshalPath_without_lpar W absent start cs r c h⟩⟩

/-- A partition with the children `PartitionName`, `PartitionID` and
`PartitionUUID` decodes, once `PartitionID` and `PartitionUUID` are taken
away, to the record with the name `lpar1`, the ID 0 and the empty UUID. -/
theorem absent_fields_decode_to_zero_witness :
    HmcLparList.LogicalPartition.unmarshal
      offline ⟨uom, "LogicalPartition"⟩
      [el "PartitionName" [.charData "lpar1"]]
      HmcLparList.LogicalPartition.zero =
      ({ XMLName := ⟨uom, "LogicalPartition"⟩, PartitionName := "lpar1", PartitionID := 0,
         PartitionUUID := "", LogicalSerialNumber := "", OperatingSystemVersion := "" }, none) :=
  ((absent_fields_decode_to_zero offline
    (fun name => name == "PartitionID" || name == "PartitionUUID") ⟨uom, "LogicalPartition"⟩
    [el "PartitionName" [.charData "lpar1"], el "PartitionID" [.charData "3"],
      el "PartitionUUID" [.charData "u1"]]).2
    { XMLName := ⟨uom, "LogicalPartition"⟩, PartitionName := "lpar1", PartitionID := 3,
      PartitionUUID := "u1", LogicalSerialNumber := "", OperatingSystemVersion := "" }
    HmcLparList.Content.zero rfl).1

/-- Claim C9 as stated fails: a login answered with status 200 that sets the
cookie `JSESSIONID=abc` without a `Path` attribute puts the cookie in the
session's jar, under the default path `/rest/api/web` of the login URL, and
the search request that follows, to `/rest/api/uom/...`, goes out with no
cookie at all. -/
theorem login_cookie_without_path_is_withheld :
    (doLogon servingBare sampleSession []).outcome = .returned () ∧
    (doLogon servingBare sampleSession []).session.client.Jar =
      [({ Scheme := "https", Opaque := "", Host := "myhmc:12443", Path := "/rest/api/web/Logon",
          RawPath := "", ForceQuery := false, RawQuery := "" }, [⟨"JSESSIONID", "abc", ""⟩])] ∧
    defaultPath "/rest/api/web/Logon" = "/rest/api/web" ∧
    pathMatch "/rest/api/uom/SharedStoragePool/search/(StoragePoolName==ssp)" "/rest/api/web" =
      false ∧
    (HmcSspAddLu.main servingBare "hscroot" "abc123" "ssp" "https://myhmc:12443").trace =
      [Event.newRequest "PUT" "https://myhmc:12443/rest/api/web/Logon"
          (loginRequest servingBare sampleSession).Body,
        Event.send (loginRequest servingBare sampleSession) [],
        Event.close,
        Event.newRequest "GET"
          "https://myhmc:12443/rest/api/uom/SharedStoragePool/search/(StoragePoolName==ssp)" none,
        Event.send (getRequest servingBare
          "https://myhmc:12443/rest/api/uom/SharedStoragePool/search/(StoragePoolName==ssp)") [],
        Event.readAll, HmcSspAddLu.heading, Event.close] :=
  ⟨rfl, rfl, rfl, rfl, rfl⟩

/-- Claim C9, amended: the login and the fetch of a run use the one session
made by `NewSession`, so the one client and cookie jar.  After a login
answered with status 200 the fetch request of `searchSSP` and of `getManaged`
goes out with exactly the cookies that this jar, now holding the cookies set
by the login response under the login URL, gives for the fetch URL.  After a
login answered with another status (401, say) the run has ended in a fatal
error and the login request is the only request ever sent. -/
theorem session_cookies_follow_login (W : World) (user password url : String) (r : Response)
    (hreq : W.newRequestErr "PUT" (authurl (NewSession user password url)) = none)
    (hans : answer W (NewSession user password url)
      [Event.newRequest "PUT" (authurl (NewSession user password url))
        (loginRequest W (NewSession user password url)).Body]
      (loginRequest W (NewSession user password url)) = .ok r) :
    (r.StatusCode = 200 →
      (∀ ssp_name : String,
        W.newRequestErr "GET" (HmcSspAddLu.sspurl (NewSession user password url) ssp_name) =
          none →
        ∃ rest, (HmcSspAddLu.main W user password ssp_name url).trace =
          [Event.newRequest "PUT" (authurl (NewSession user password url))
              (loginRequest W (NewSession user password url)).Body,
            Event.send (loginRequest W (NewSession user password url))
              (W.jarCookies [] (W.parseURL (authurl (NewSession user password url)))),
            Event.close,
            Event.newRequest "GET" (HmcSspAddLu.sspurl (NewSession user password url) ssp_name)
              none,
            Event.send
              (getRequest W (HmcSspAddLu.sspurl (NewSession user password url) ssp_name))
              (W.jarCookies
                (if r.Cookies.isEmpty then []
                  else [(W.parseURL (authurl (NewSession user password url)), r.Cookies)])
                (W.parseURL (HmcSspAddLu.sspurl (NewSession user password url) ssp_name)))] ++
          rest) ∧
      (W.newRequestErr "GET" (HmcLparList.mgdurl (NewSession user password url)) = none →
        ∃ rest, (HmcLparList.main W user password url).trace =
          [Event.newRequest "PUT" (authurl (NewSession user password url))
              (loginRequest W (NewSession user password url)).Body,
            Event.send (loginRequest W (NewSession user password url))
              (W.jarCookies [] (W.parseURL (authurl (NewSession user password url)))),
            Event.close,
            Event.newRequest "GET" (HmcLparList.mgdurl (NewSession user password url)) none,
            Event.send (getRequest W (HmcLparList.mgdurl (NewSession user password url)))
              (W.jarCookies
                (if r.Cookies.isEmpty then []
                  else [(W.parseURL (authurl (NewSession user password url)), r.Cookies)])
                (W.parseURL (HmcLparList.mgdurl (NewSession user password url))))] ++ rest)) ∧
    (r.StatusCode ≠ 200 →
      (∀ ssp_name : String,
        (HmcSspAddLu.main W user password ssp_name url).outcome =
          .fatalf "Error status code: %d" [.int r.StatusCode] ∧
        (HmcSspAddLu.main W user password ssp_name url).trace =
          [Event.newRequest "PUT" (authurl (NewSession user password url))
              (loginRequest W (NewSession user password url)).Body,
            Event.send (loginRequest W (NewSession user password url))
              (W.jarCookies [] (W.parseURL (authurl (NewSession user password url))))]) ∧
      ((HmcLparList.main W user password url).outcome =
          .fatalf "Error status code: %d" [.int r.StatusCode] ∧
        (HmcLparList.main W user password url).trace =
          [Event.newRequest "PUT" (authurl (NewSession user password url))
              (loginRequest W (NewSession user password url)).Body,
            Event.send (loginRequest W (NewSession user password url))
              (W.jarCookies [] (W.parseURL (authurl (NewSession user password url))))])) :=
  ⟨fun h200 =>
      ⟨fun ssp_name hget =>
          HmcSspAddLu.main_logged_in_ssp W user password ssp_name url r hreq hans h200 hget,
        fun hget => HmcLparList.main_logged_in_lpar W user password url r hreq hans h200 hget⟩,
    fun hne =>
      ⟨fun ssp_name => HmcSspAddLu.main_refused_ssp W user password ssp_name url r hreq hans hne,
        HmcLparList.main_refused_lpar W user password url r hreq hans hne⟩⟩

/-- A login answered with 200 and the cookie `JSESSIONID=abc; Path=/` is
followed by a search request that carries `JSESSIONID=abc`; a login answered
with 401 is followed by no request at all. -/
theorem session_cookies_follow_login_witness :
    (∃ rest, (HmcSspAddLu.main servingRooted
      "hscroot" "abc123" "ssp" "https://myhmc:12443").trace =
      [Event.newRequest "PUT" "https://myhmc:12443/rest/api/web/Logon"
          (loginRequest servingRooted sampleSession).Body,
        Event.send (loginRequest servingRooted sampleSession) [],
        Event.close,
        Event.newRequest "GET"
          "https://myhmc:12443/rest/api/uom/SharedStoragePool/search/(StoragePoolName==ssp)" none,
        Event.send (getRequest servingRooted
          "https://myhmc:12443/rest/api/uom/SharedStoragePool/search/(StoragePoolName==ssp)")
          [⟨"JSESSIONID", "abc", ""⟩]] ++ rest) ∧
    sends (HmcSspAddLu.main refusing "hscroot" "abc123" "ssp" "https://myhmc:12443").trace = 1 :=
  ⟨((session_cookies_follow_login servingRooted
      "hscroot" "abc123" "https://myhmc:12443" (sampleResponse 200 [⟨"JSESSIONID", "abc", "/"⟩] "")
      rfl rfl).1 rfl).1 "ssp" rfl,
    congrArg sends (((session_cookies_follow_login refusing
      "hscroot" "abc123" "https://myhmc:12443" (sampleResponse 401 [] "")
      rfl rfl).2 (by decide)).1 "ssp").2⟩

end Hmc
